import Mathlib

/-! Verification development for `pkg/bath` (opentonapi).

Shallow embedding of `pkg/bath/actions.go` and `pkg/bath/bubble.go`:

* Go `int64` is the type `int64` below: an integer in `[-2^63, 2^63)` whose
  arithmetic wraps modulo `2^64` (`wrap64`).
* Go pointers that may be `nil` are `Option`; a Go map is an association list
  with distinct keys (`AList`); a slice is a `List`.
* A Go interface value is its dynamic type together with the value it holds;
  the `nil` interface is the `none` of an `Option` around it.
* A run-time panic (nil pointer dereference) is the result `none`.
-/

namespace Bath

/-! # Definitions -/

/-! ## Machine integers -/

/-- Two's complement reduction of an integer to the `int64` range. -/
def wrap64 (z : Int) : Int := (z + 2 ^ 63) % 2 ^ 64 - 2 ^ 63

/-- Go `int64`: the integers of the range `[-2^63, 2^63)`. -/
def int64 : Type := { z : Int // -2 ^ 63 ≤ z ∧ z < 2 ^ 63 }

instance : DecidableEq int64 :=
  inferInstanceAs (DecidableEq { z : Int // -2 ^ 63 ≤ z ∧ z < 2 ^ 63 })

/-- Conversion of an integer to `int64`, wrapping. -/
def int64.ofInt (z : Int) : int64 :=
  ⟨wrap64 z, by unfold wrap64; omega⟩

/-- Go `a + b` on `int64`: wraps on overflow. -/
def int64.add (a b : int64) : int64 := int64.ofInt (a.val + b.val)

/-- Go unary `-a` on `int64`: wraps at the minimum value. -/
def int64.neg (a : int64) : int64 := int64.ofInt (-a.val)

instance : Add int64 := ⟨int64.add⟩

instance : Neg int64 := ⟨int64.neg⟩

instance (n : Nat) : OfNat int64 n := ⟨int64.ofInt n⟩

instance : Inhabited int64 := ⟨0⟩

/-! ## Identifiers and small external types -/

/-- Account identifier `tongo.AccountID`: workchain and 32-byte address (as a number). -/
structure AccountID where
  Workchain : Int
  Address : Nat
deriving DecidableEq, Repr

/-- Interface tag `abi.ContractInterface` (a name). -/
abbrev ContractInterface := String

/-- Go `type ActionType string`. -/
abbrev ActionType := String

/-- Go `type RefundType string`. -/
abbrev RefundType := String

def Empty : ActionType := "Empty"

def TonTransfer : ActionType := "TonTransfer"

def SmartContractExec : ActionType := "SmartContractExec"

def NftItemTransfer : ActionType := "NftItemTransfer"

def GetGemsNftPurchase : ActionType := "GetGemsNftPurchase"

def JettonTransfer : ActionType := "JettonTransfer"

def ContractDeploy : ActionType := "ContractDeploy"

def Subscription : ActionType := "Subscription"

def UnSubscription : ActionType := "UnSubscribe"

def AuctionBid : ActionType := "AuctionBid"

def AuctionTgInitBid : ActionType := "AuctionTgInitBid"

def RefundDnsTg : RefundType := "DNS.tg"

def RefundDnsTon : RefundType := "DNS.ton"

def RefundGetGems : RefundType := "GetGems"

def RefundUnknown : RefundType := "unknown"

/-! ## Actions (`actions.go`, lines 37-133) -/

/-- Go struct `Refund`; the field `Type` is written `Type_`. -/
structure Refund where
  Type_ : RefundType
  Origin : String
deriving DecidableEq, Repr

/-- Go struct `SimplePreview`; `TemplateData` holds rendered values. -/
structure SimplePreview where
  Name : String
  Value : String
  Accounts : List AccountID
  MessageID : String
  TemplateData : List (String × String)
deriving DecidableEq

/-- Modelled from the spec: the type `HiddenTonValue` of the entries of
`TonAttached` is not in the visible sources; §4.6 describes the list as hidden
native-coin movements summed per account, so an entry is an account with a
native-coin amount (§6: signed 64-bit nanocoin). -/
structure HiddenTonValue where
  Account : AccountID
  Amount : int64
deriving DecidableEq

/-- Stand-in for `core.NftItem` (another package): the item's address. -/
structure NftItem where
  Address : AccountID
deriving DecidableEq

structure TonTransferAction where
  Amount : int64
  Comment : Option String
  Recipient : AccountID
  Sender : AccountID
  Refund : Option Refund
deriving DecidableEq

structure SmartContractAction where
  TonAttached : int64
  Executor : AccountID
  Contract : AccountID
  Operation : String
  Payload : String
deriving DecidableEq

structure NftTransferAction where
  Comment : Option String
  Recipient : Option AccountID
  Sender : Option AccountID
  Nft : AccountID
  Refund : Option Refund
  TonAttached : List HiddenTonValue
deriving DecidableEq

structure GetGemsNftPurchaseAction where
  Nft : AccountID
  NewOwner : AccountID
  TonAttached : List HiddenTonValue
deriving DecidableEq

/-- Go struct `JettonTransferAction`; `Amount` is a `tlb.VarUInteger16`. -/
structure JettonTransferAction where
  Comment : Option String
  Jetton : AccountID
  Recipient : Option AccountID
  Sender : Option AccountID
  RecipientsWallet : AccountID
  SendersWallet : AccountID
  Amount : Nat
  Refund : Option Refund
  TonAttached : List HiddenTonValue
deriving DecidableEq

structure ContractDeployAction where
  Address : AccountID
  Interfaces : List String
deriving DecidableEq

structure SubscriptionAction where
  Subscription : AccountID
  Subscriber : AccountID
  Beneficiary : AccountID
  Amount : int64
  First : Bool
deriving DecidableEq

structure UnSubscriptionAction where
  Subscription : AccountID
  Subscriber : AccountID
  Beneficiary : AccountID
deriving DecidableEq

structure AuctionBidAction where
  Bidder : AccountID
  PreviousBidder : Option AccountID
  Bid : int64
  Item : Option NftItem
  AuctionType : String
deriving DecidableEq

/-- Go struct `Action`: one pointer per variant (`none` is the nil pointer);
the field `Type` is written `Type_`. -/
structure Action where
  TonTransfer : Option TonTransferAction
  SmartContractExec : Option SmartContractAction
  NftItemTransfer : Option NftTransferAction
  GetGemsNftPurchase : Option GetGemsNftPurchaseAction
  JettonTransfer : Option JettonTransferAction
  ContractDeploy : Option ContractDeployAction
  Subscription : Option SubscriptionAction
  UnSubscription : Option UnSubscriptionAction
  AuctionBid : Option AuctionBidAction
  Success : Bool
  Type_ : ActionType
  SimplePreview : SimplePreview
deriving DecidableEq

/-! ## `ContributeToExtra` (`actions.go`, lines 160-215) -/

/-- Modelled from the spec: `getTotalHiddenAmount` is called by the source but
not defined in the visible files; §4.6 says the hidden contributions are summed
per account, so it adds up (in `int64`) the amounts of the entries of the given
account. -/
def getTotalHiddenAmount (account : AccountID) (values : List HiddenTonValue) : int64 :=
  values.foldl (fun total v => if v.Account = account then total + v.Amount else total) 0

/-- A non-nil value of the Go interface `extraContributor`: the dynamic type
(one constructor per implementing pointer type) and the pointer stored in it,
which may itself be nil. The nil interface value is `none : Option extraContributor`. -/
inductive extraContributor where
  | ofTonTransfer (p : Option TonTransferAction)
  | ofSmartContract (p : Option SmartContractAction)
  | ofNftTransfer (p : Option NftTransferAction)
  | ofGetGemsNftPurchase (p : Option GetGemsNftPurchaseAction)
  | ofJettonTransfer (p : Option JettonTransferAction)
  | ofSubscription (p : Option SubscriptionAction)
deriving DecidableEq

/-- Method `(a *TonTransferAction) ContributeToExtra`: the receiver is not read. -/
def TonTransferAction.ContributeToExtra (_a : Option TonTransferAction)
    (_account : AccountID) (extra : int64) : Option int64 :=
  some extra

/-- Method `(a *SmartContractAction) ContributeToExtra`: the receiver is not read. -/
def SmartContractAction.ContributeToExtra (_a : Option SmartContractAction)
    (_account : AccountID) (extra : int64) : Option int64 :=
  some extra

/-- Method `(a *NftTransferAction) ContributeToExtra`: reads `a.TonAttached`,
which panics on a nil receiver. -/
def NftTransferAction.ContributeToExtra (a : Option NftTransferAction)
    (account : AccountID) (extra : int64) : Option int64 :=
  match a with
  | none => none
  | some n => some (extra + getTotalHiddenAmount account n.TonAttached)

/-- Method `(a *GetGemsNftPurchaseAction) ContributeToExtra`: the receiver is not read. -/
def GetGemsNftPurchaseAction.ContributeToExtra (_a : Option GetGemsNftPurchaseAction)
    (_account : AccountID) (extra : int64) : Option int64 :=
  some extra

/-- Method `(a *JettonTransferAction) ContributeToExtra`: reads `a.TonAttached`,
which panics on a nil receiver. -/
def JettonTransferAction.ContributeToExtra (a : Option JettonTransferAction)
    (account : AccountID) (extra : int64) : Option int64 :=
  match a with
  | none => none
  | some j => some (extra + getTotalHiddenAmount account j.TonAttached)

/-- Method `(a *SubscriptionAction) ContributeToExtra`: the receiver is not read. -/
def SubscriptionAction.ContributeToExtra (_a : Option SubscriptionAction)
    (_account : AccountID) (extra : int64) : Option int64 :=
  some extra

/-- Dynamic dispatch of `ContributeToExtra` on an interface value. -/
def extraContributor.ContributeToExtra (c : extraContributor)
    (account : AccountID) (extra : int64) : Option int64 :=
  match c with
  | .ofTonTransfer p => TonTransferAction.ContributeToExtra p account extra
  | .ofSmartContract p => SmartContractAction.ContributeToExtra p account extra
  | .ofNftTransfer p => NftTransferAction.ContributeToExtra p account extra
  | .ofGetGemsNftPurchase p => GetGemsNftPurchaseAction.ContributeToExtra p account extra
  | .ofJettonTransfer p => JettonTransferAction.ContributeToExtra p account extra
  | .ofSubscription p => SubscriptionAction.ContributeToExtra p account extra

/-- Method `(a *Action) actions`. Each element of the slice literal `all` is a
pointer converted to the interface type, so it is an interface value with a
dynamic type even when the pointer is nil; the test `action == nil` compares
the interface value with the nil interface. -/
def Action.actions (a : Action) : List extraContributor :=
  let all : List (Option extraContributor) :=
    [ some (.ofTonTransfer a.TonTransfer),
      some (.ofSmartContract a.SmartContractExec),
      some (.ofNftTransfer a.NftItemTransfer),
      some (.ofGetGemsNftPurchase a.GetGemsNftPurchase),
      some (.ofJettonTransfer a.JettonTransfer),
      some (.ofSubscription a.Subscription) ]
  all.foldl
    (fun result action =>
      match action with
      | none => result
      | some c => result ++ [c])
    []

/-- The loop of `Action.ContributeToExtra` over a list of contributors. -/
def contributeLoop (account : AccountID) : List extraContributor → int64 → Option int64
  | [], extra => some extra
  | action :: rest, extra =>
    match action.ContributeToExtra account extra with
    | none => none
    | some e => contributeLoop account rest e

/-- Method `(a *Action) ContributeToExtra`; `none` is a panic. -/
def Action.ContributeToExtra (a : Action) (account : AccountID) (extra : int64) : Option int64 :=
  contributeLoop account a.actions extra

/-! ## Value flow

The file that defines `ValueFlow` is not among the visible sources; the
definitions of this section follow the specification (§3, §4.5). -/

/-- Modelled from the spec: a map of token deltas (`Jettons`, `Nfts` of §3),
keyed by the token's account id. -/
abbrev TokenDeltas := AList (fun _ : AccountID => Int)

/-- Modelled from the spec: `AccountValueFlow` (§3) with the native-coin delta
`Ton`, the aggregated `Fees`, and the jetton and NFT deltas. -/
structure AccountValueFlow where
  Ton : int64
  Fees : int64
  Jettons : TokenDeltas
  Nfts : TokenDeltas
deriving DecidableEq

/-- Modelled from the spec: `ValueFlow` (§3), a mapping account → `AccountValueFlow`. -/
structure ValueFlow where
  Accounts : AList (fun _ : AccountID => AccountValueFlow)
deriving DecidableEq

/-- The account entry as created on demand: all zero, no tokens. -/
def AccountValueFlow.zero : AccountValueFlow := ⟨0, 0, ∅, ∅⟩

/-- Modelled from the spec: `newValueFlow`, the empty value flow. -/
def newValueFlow : ValueFlow := ⟨∅⟩

/-- The entry of an account, the on-demand entry when the account has none. -/
def ValueFlow.entry (flow : ValueFlow) (account : AccountID) : AccountValueFlow :=
  (flow.Accounts.lookup account).getD AccountValueFlow.zero

/-- Modelled from the spec: §4.5 "all mutations create the account entry on
demand": apply a change to the (possibly fresh) entry of an account. -/
def ValueFlow.mutate (flow : ValueFlow) (account : AccountID)
    (f : AccountValueFlow → AccountValueFlow) : ValueFlow :=
  ⟨flow.Accounts.insert account (f (flow.entry account))⟩

/-- Additive change of one token key; a key whose delta becomes zero is pruned. -/
def TokenDeltas.addDelta (m : TokenDeltas) (k : AccountID) (d : Int) : TokenDeltas :=
  if (m.lookup k).getD 0 + d = 0 then m.erase k else m.insert k ((m.lookup k).getD 0 + d)

/-- Additive merge of two token maps, key by key. -/
def TokenDeltas.addAll (m other : TokenDeltas) : TokenDeltas :=
  other.entries.foldl (fun acc kv => TokenDeltas.addDelta acc kv.1 kv.2) m

/-- Modelled from the spec: `AddTons(account, Δ)` of §4.5. -/
def ValueFlow.AddTons (flow : ValueFlow) (account : AccountID) (amount : int64) : ValueFlow :=
  flow.mutate account (fun e => { e with Ton := e.Ton + amount })

/-- Modelled from the spec: `AddJettons(account, jetton, Δ)` of §4.5. -/
def ValueFlow.AddJettons (flow : ValueFlow) (account jetton : AccountID) (d : Int) : ValueFlow :=
  flow.mutate account (fun e => { e with Jettons := e.Jettons.addDelta jetton d })

/-- Modelled from the spec: `AddNfts(account, nft, Δ)` of §4.5. -/
def ValueFlow.AddNfts (flow : ValueFlow) (account nft : AccountID) (d : Int) : ValueFlow :=
  flow.mutate account (fun e => { e with Nfts := e.Nfts.addDelta nft d })

/-- Modelled from the spec: `SetFees(account, f)` of §4.5. -/
def ValueFlow.SetFees (flow : ValueFlow) (account : AccountID) (fee : int64) : ValueFlow :=
  flow.mutate account (fun e => { e with Fees := fee })

/-- Key-wise sum of two account entries (`int64` for coin and fees). -/
def AccountValueFlow.add (e o : AccountValueFlow) : AccountValueFlow :=
  { Ton := e.Ton + o.Ton
    Fees := e.Fees + o.Fees
    Jettons := e.Jettons.addAll o.Jettons
    Nfts := e.Nfts.addAll o.Nfts }

/-- An entry with no coin, no fees and no token delta. -/
def AccountValueFlow.isEmpty (e : AccountValueFlow) : Bool :=
  decide (e.Ton = 0) && decide (e.Fees = 0) && e.Jettons.entries.isEmpty && e.Nfts.entries.isEmpty

/-- Removal of the accounts whose entry is empty. -/
def ValueFlow.prune (flow : ValueFlow) : ValueFlow :=
  ⟨⟨flow.Accounts.entries.filter (fun kv => !kv.2.isEmpty),
    List.NodupKeys.sublist (List.filter_sublist _) flow.Accounts.nodupKeys⟩⟩

/-- Modelled from the spec: `Merge(other)` of §3 and §4.5, "additive per key;
empty keys are pruned": every entry of `other` is added to the entry of the same
account, then empty entries are dropped. -/
def ValueFlow.Merge (flow other : ValueFlow) : ValueFlow :=
  (other.Accounts.entries.foldl (fun acc kv => acc.mutate kv.1 (fun e => e.add kv.2)) flow).prune

/-- Native-coin delta recorded for an account (0 when it has no entry). -/
def ValueFlow.tonOf (flow : ValueFlow) (account : AccountID) : int64 :=
  (flow.entry account).Ton

/-- Fees recorded for an account (0 when it has no entry). -/
def ValueFlow.feesOf (flow : ValueFlow) (account : AccountID) : int64 :=
  (flow.entry account).Fees

/-- Sum over all accounts of the value flow of `Ton`, as an integer. -/
def ValueFlow.totalTon (flow : ValueFlow) : Int :=
  (flow.Accounts.entries.map (fun kv => kv.2.Ton.val)).sum

/-- Sum over all accounts of the value flow of `Fees`, as an integer. -/
def ValueFlow.totalFees (flow : ValueFlow) : Int :=
  (flow.Accounts.entries.map (fun kv => kv.2.Fees.val)).sum

/-! ## Bubbles (`bubble.go`, lines 13-61) -/

/-- Modelled from the spec: the injected address book (§6), an interface whose
implementation is outside the visible sources. -/
structure addressBook where
  resolve : AccountID → Option String
  auctionKind : AccountID → String

/-- Go interface `actioner`, as used at its call site `bubble.Info.ToAction(book)`:
a type of bubble infos with the method `ToAction`; `none` is the nil `*Action`. -/
class actioner (ι : Type) where
  ToAction : ι → addressBook → Option Action

/-- Go struct `ContractDeployment`. -/
structure ContractDeployment where
  initInterfaces : List ContractInterface
  success : Bool
deriving DecidableEq

/-- Go type `map[tongo.AccountID]ContractDeployment` of a non-nil map. -/
abbrev DeploymentMap := AList (fun _ : AccountID => ContractDeployment)

/-- Go struct `Bubble`; `ι` is the dynamic type of `Info`, and
`ContractDeployments = none` is the nil map. -/
inductive Bubble (ι : Type) where
  | mk (Info : ι) (Accounts : List AccountID) (Children : List (Bubble ι))
      (ValueFlow : ValueFlow)
      (ContractDeployments : Option DeploymentMap)

def Bubble.Info {ι : Type} : Bubble ι → ι
  | .mk i _ _ _ _ => i

def Bubble.Accounts {ι : Type} : Bubble ι → List AccountID
  | .mk _ a _ _ _ => a

def Bubble.Children {ι : Type} : Bubble ι → List (Bubble ι)
  | .mk _ _ c _ _ => c

def Bubble.ValueFlow {ι : Type} : Bubble ι → ValueFlow
  | .mk _ _ _ v _ => v

def Bubble.ContractDeployments {ι : Type} : Bubble ι → Option DeploymentMap
  | .mk _ _ _ _ d => d

/-! ## The flattener (`actions.go`, lines 142-158) -/

mutual
/-- Function `CollectActionsAndValueFlow`; `forAccount = none` is the nil pointer. -/
def CollectActionsAndValueFlow {ι : Type} [actioner ι] :
    Bubble ι → Option AccountID → addressBook → List Action × ValueFlow
  | .mk info accounts children valueFlow _, forAccount, book =>
    let actions : List Action :=
      if (match forAccount with
          | none => true
          | some account => accounts.contains account) then
        match actioner.ToAction info book with
        | some a => [] ++ [a]
        | none => []
      else []
    let st := collectChildrenLoop children forAccount book (actions, newValueFlow)
    (st.1, st.2.Merge valueFlow)
/-- The loop `for _, c := range bubble.Children` of `CollectActionsAndValueFlow`,
on the state `(actions, valueFlow)`. -/
def collectChildrenLoop {ι : Type} [actioner ι] :
    List (Bubble ι) → Option AccountID → addressBook →
      List Action × ValueFlow → List Action × ValueFlow
  | [], _, _, st => st
  | c :: rest, forAccount, book, st =>
    let child := CollectActionsAndValueFlow c forAccount book
    collectChildrenLoop rest forAccount book (st.1 ++ child.1, st.2.Merge child.2)
end

/-! ## Traces (package `core`, outside the visible sources) -/

/-- Account state `tlb.AccountStatus`. -/
inductive AccountStatus where
  | AccountActive
  | AccountUninit
  | AccountFrozen
  | AccountNone
deriving DecidableEq

/-- Skip reason `tlb.ComputeSkipReason` of a compute phase (`unset` when the
phase was not skipped). -/
inductive ComputeSkipReason where
  | unset
  | ComputeSkipReasonNoState
  | ComputeSkipReasonBadState
  | ComputeSkipReasonNoGas
deriving DecidableEq

/-- Transaction type `core.TransactionType`. -/
inductive TransactionType where
  | OrdinaryTx
  | TickTockTx
deriving DecidableEq

/-- Modelled from the spec: the compute phase of §3, optional, with its skip reason. -/
structure TxComputePhase where
  SkipReason : ComputeSkipReason
deriving DecidableEq

/-- Modelled from the spec: the typed payload of a decoded message body (§6):
an operation name and its value. -/
structure DecodedMessageBody where
  Operation : String
  Value : String
deriving DecidableEq

/-- Modelled from the spec: `core.Message` with the fields §3 lists for `InMsg`
and `OutMsgs`; amounts and fees are `int64`. -/
structure Message where
  Source : Option AccountID
  Destination : Option AccountID
  Value : int64
  FwdFee : int64
  Bounce : Bool
  Bounced : Bool
  OpCode : Option Nat
  DecodedBody : Option DecodedMessageBody
  Init : List Nat
  InitInterfaces : List ContractInterface
deriving DecidableEq

/-- Modelled from the spec: `IsExternal` of §3, true of a message with no source. -/
def Message.IsExternal (m : Message) : Bool := m.Source.isNone

/-- Modelled from the spec: `core.Transaction`, the per-node data of §3 that
`fromTrace` reads; the field `Type` is written `Type_`. -/
structure Transaction where
  Account : AccountID
  Success : Bool
  Type_ : TransactionType
  ComputePhase : Option TxComputePhase
  EndStatus : AccountStatus
  OrigStatus : AccountStatus
  InMsg : Option Message
  OutMsgs : List Message
  TotalFee : int64
deriving DecidableEq

/-- Opaque side-channel `AdditionalInfo` of a trace node. -/
abbrev TraceAdditionalInfo := String

/-- Modelled from the spec: `core.Trace`, the transaction (embedded in Go), the
account's interfaces, the ordered children and the additional info. -/
inductive Trace where
  | mk (Transaction : Transaction) (AccountInterfaces : List ContractInterface)
      (Children : List Trace) (AdditionalInfo : Option TraceAdditionalInfo)

def Trace.Transaction : Trace → Transaction
  | .mk t _ _ _ => t

def Trace.AccountInterfaces : Trace → List ContractInterface
  | .mk _ i _ _ => i

def Trace.Children : Trace → List Trace
  | .mk _ _ c _ => c

def Trace.AdditionalInfo : Trace → Option TraceAdditionalInfo
  | .mk _ _ _ a => a

/-! ## The trace adapter (`bubble.go`, lines 63-136) -/

/-- Go struct `Account` as built by `fromTrace`. -/
structure Account where
  Address : AccountID
  Interfaces : List ContractInterface
deriving DecidableEq

/-- The fields of `BubbleTx` that `fromTrace` sets (the type is declared outside
the visible sources). -/
structure BubbleTx where
  success : Bool
  transactionType : TransactionType
  account : Account
  external : Bool
  accountWasActiveAtComputingTime : Bool
  additionalInfo : Option TraceAdditionalInfo
  bounce : Bool
  bounced : Bool
  inputAmount : int64
  opCode : Option Nat
  decodedBody : Option DecodedMessageBody
  inputFrom : Option Account
  init : List Nat
deriving DecidableEq

/-- State of the two loops of `fromTrace`: the bubble's value flow, the
aggregated fee and the children filled so far. -/
structure FromTraceState where
  flow : ValueFlow
  aggregatedFee : int64
  children : List (Bubble BubbleTx)

/-- Body of the loop `for _, outMsg := range trace.OutMsgs` (lines 120-123). -/
def outMsgStep (account : AccountID) (st : ValueFlow × int64) (outMsg : Message) :
    ValueFlow × int64 :=
  (st.1.AddTons account (-outMsg.Value), st.2 + outMsg.FwdFee)

mutual
/-- Function `fromTrace` (lines 67-136). -/
def fromTrace : Trace → Bubble BubbleTx
  | .mk tx accountInterfaces children additionalInfo =>
    let btx0 : BubbleTx :=
      { success := tx.Success
        transactionType := tx.Type_
        account := { Address := tx.Account, Interfaces := accountInterfaces }
        external := (match tx.InMsg with
          | none => true
          | some m => m.IsExternal)
        accountWasActiveAtComputingTime := (decide (tx.Type_ ≠ TransactionType.OrdinaryTx)
          || (match tx.ComputePhase with
              | none => true
              | some p => decide (p.SkipReason ≠ ComputeSkipReason.ComputeSkipReasonNoState)))
        additionalInfo := additionalInfo
        bounce := false
        bounced := false
        inputAmount := 0
        opCode := none
        decodedBody := none
        inputFrom := none
        init := [] }
    let source : Option Account :=
      match tx.InMsg with
      | some m =>
        (match m.Source with
         | some s => some { Address := s, Interfaces := [] }
         | none => none)
      | none => none
    let accounts : List AccountID :=
      match source with
      | some src => [tx.Account] ++ [src.Address]
      | none => [tx.Account]
    let inputAmount : int64 :=
      match tx.InMsg with
      | some msg => msg.Value
      | none => 0
    let initInterfaces : List ContractInterface :=
      match tx.InMsg with
      | some msg => msg.InitInterfaces
      | none => []
    let btx : BubbleTx :=
      match tx.InMsg with
      | some msg =>
        { btx0 with
          bounce := msg.Bounce
          bounced := msg.Bounced
          inputAmount := msg.Value
          opCode := msg.OpCode
          decodedBody := msg.DecodedBody
          inputFrom := source
          init := msg.Init }
      | none => btx0
    let flow0 : ValueFlow :=
      ⟨AList.singleton tx.Account { AccountValueFlow.zero with Ton := inputAmount }⟩
    let contractDeployed : Bool :=
      decide (tx.EndStatus = AccountStatus.AccountActive)
        && decide (tx.OrigStatus ≠ AccountStatus.AccountActive)
    let deployments : DeploymentMap :=
      if contractDeployed then
        (∅ : DeploymentMap).insert tx.Account
          { success := btx.success, initInterfaces := initInterfaces }
      else ∅
    let afterOut := tx.OutMsgs.foldl (outMsgStep tx.Account) (flow0, tx.TotalFee)
    let st := fromTraceChildrenLoop tx.Account children ⟨afterOut.1, afterOut.2, []⟩
    -- line 134 assigns the field `Fees` of the entry of `trace.Account`, which
    -- exists since line 106
    .mk btx accounts st.children (st.flow.SetFees tx.Account st.aggregatedFee)
      (some deployments)
/-- The loop `for i, c := range trace.Children` of `fromTrace` (lines 124-133). -/
def fromTraceChildrenLoop (account : AccountID) :
    List Trace → FromTraceState → FromTraceState
  | [], st => st
  | c :: rest, st =>
    let st1 : ValueFlow × int64 :=
      match c.Transaction.InMsg with
      | some m => (st.flow.AddTons account (-m.Value), st.aggregatedFee + m.FwdFee)
      | none => (st.flow, st.aggregatedFee)
    fromTraceChildrenLoop account rest ⟨st1.1, st1.2, st.children ++ [fromTrace c]⟩
end

/-- Function `FromTrace` (lines 63-65). -/
def FromTrace (trace : Trace) : Bubble BubbleTx := fromTrace trace

/-! ## Specification-side notions -/

/-- Integer sum of the amounts of the entries of `account` in a `TonAttached` list. -/
def hiddenSum (account : AccountID) (values : List HiddenTonValue) : Int :=
  ((values.filter (fun v => v.Account = account)).map (fun v => v.Amount.val)).sum

/-! ## Sample inputs -/

/-- Account of workchain 0 with the given address. -/
def sampleAccount (n : Nat) : AccountID := ⟨0, n⟩

/-- An action with no variant populated. -/
def sampleEmptyAction : Action :=
  { TonTransfer := none, SmartContractExec := none, NftItemTransfer := none,
    GetGemsNftPurchase := none, JettonTransfer := none, ContractDeploy := none,
    Subscription := none, UnSubscription := none, AuctionBid := none,
    Success := true, Type_ := Empty, SimplePreview := ⟨"", "", [], "", []⟩ }

/-- A TON transfer of 5 nanocoin from account 1 to account 2. -/
def sampleTonTransfer : Action :=
  { sampleEmptyAction with
    TonTransfer := some ⟨5, none, sampleAccount 2, sampleAccount 1, none⟩
    Type_ := TonTransfer }

/-- A jetton transfer variant with hidden amounts 3 and 10 for account 1 and 4 for account 2. -/
def sampleJettonVariant : JettonTransferAction :=
  { Comment := none, Jetton := sampleAccount 7, Recipient := none, Sender := none,
    RecipientsWallet := sampleAccount 8, SendersWallet := sampleAccount 9, Amount := 500,
    Refund := none,
    TonAttached := [⟨sampleAccount 1, 3⟩, ⟨sampleAccount 2, 4⟩, ⟨sampleAccount 1, 10⟩] }

/-- An NFT transfer variant with a negative hidden amount for account 1. -/
def sampleNegativeVariant : NftTransferAction :=
  { Comment := none, Recipient := none, Sender := none, Nft := sampleAccount 6,
    Refund := none, TonAttached := [⟨sampleAccount 1, -5⟩] }

/-- An NFT transfer variant with the same hidden amounts. -/
def sampleNftVariant : NftTransferAction :=
  { Comment := none, Recipient := none, Sender := none, Nft := sampleAccount 6,
    Refund := none,
    TonAttached := [⟨sampleAccount 1, 3⟩, ⟨sampleAccount 2, 4⟩, ⟨sampleAccount 1, 10⟩] }

/-- An action whose only populated variant is the jetton transfer. -/
def sampleJettonTransfer : Action :=
  { sampleEmptyAction with
    JettonTransfer := some sampleJettonVariant
    Type_ := JettonTransfer }

/-- An action whose only populated variant is the NFT transfer. -/
def sampleNftTransfer : Action :=
  { sampleEmptyAction with
    NftItemTransfer := some sampleNftVariant
    Type_ := NftItemTransfer }

/-! ## Specification-side notions for the flattener -/

mutual
/-- All bubbles of a tree: the bubble itself, then those of its children in order. -/
def Bubble.bubbles {ι : Type} : Bubble ι → List (Bubble ι)
  | .mk i a cs v d => Bubble.mk i a cs v d :: bubblesOfList cs
/-- All bubbles of a list of trees. -/
def bubblesOfList {ι : Type} : List (Bubble ι) → List (Bubble ι)
  | [] => []
  | c :: rest => c.bubbles ++ bubblesOfList rest
end

/-- The filter of the flattener: `forAccount` is unset or among the bubble's accounts. -/
def passesFilter {ι : Type} (b : Bubble ι) (forAccount : Option AccountID) : Bool :=
  match forAccount with
  | none => true
  | some a => decide (a ∈ b.Accounts)

/-- The actions a bubble contributes by itself: its own action when it passes
the filter and `ToAction` is non-nil. -/
def ownActions {ι : Type} [actioner ι] (b : Bubble ι) (forAccount : Option AccountID)
    (book : addressBook) : List Action :=
  if passesFilter b forAccount then (actioner.ToAction b.Info book).toList else []

mutual
/-- Post-order listing of the actions of a tree with no account filter: the
children's actions in child order, then the bubble's own action. -/
def postOrderActions {ι : Type} [actioner ι] : Bubble ι → addressBook → List Action
  | .mk i _ cs _ _, book => postOrderActionsOfList cs book ++ (actioner.ToAction i book).toList
/-- Post-order listing of the actions of a list of trees. -/
def postOrderActionsOfList {ι : Type} [actioner ι] : List (Bubble ι) → addressBook → List Action
  | [], _ => []
  | c :: rest, book => postOrderActions c book ++ postOrderActionsOfList rest book
end

/-- A bubble info that is just its (possibly nil) action. -/
instance : actioner (Option Action) := ⟨fun i _ => i⟩

/-- An address book that knows no account. -/
def sampleBook : addressBook := ⟨fun _ => none, fun _ => ""⟩

/-- A value flow crediting 5 to account 1 and debiting 5 from account 2. -/
def sampleFlow : ValueFlow := (newValueFlow.AddTons (sampleAccount 1) 5).AddTons (sampleAccount 2) (-5)

/-- A bubble without children, with a nil deployment map. -/
def sampleLeaf (a : Option Action) (accounts : List AccountID) (flow : ValueFlow) :
    Bubble (Option Action) :=
  .mk a accounts [] flow none

/-- A root (TON transfer, account 1) with two children: a jetton transfer of
account 2 and a bubble of account 1 with no action. -/
def sampleTree : Bubble (Option Action) :=
  .mk (some sampleTonTransfer) [sampleAccount 1]
    [sampleLeaf (some sampleJettonTransfer) [sampleAccount 2] sampleFlow,
     sampleLeaf none [sampleAccount 1] sampleFlow]
    sampleFlow none

/-! ## Specification-side notions for the trace adapter -/

/-- Value of the inbound message of a transaction, 0 when there is none. -/
def inValue (tx : Transaction) : Int :=
  match tx.InMsg with
  | some m => m.Value.val
  | none => 0

/-- Sum of `Value` over all outbound messages of a transaction. -/
def outValueSum (tx : Transaction) : Int := (tx.OutMsgs.map (fun m => m.Value.val)).sum

/-- Sum of `FwdFee` over all outbound messages of a transaction. -/
def outFwdFeeSum (tx : Transaction) : Int := (tx.OutMsgs.map (fun m => m.FwdFee.val)).sum

/-- Sum of `InMsg.Value` over the children that have an `InMsg`. -/
def childInValueSum (children : List Trace) : Int :=
  ((children.filterMap (fun c => c.Transaction.InMsg)).map (fun m => m.Value.val)).sum

/-- Sum of `InMsg.FwdFee` over the children that have an `InMsg`. -/
def childInFwdFeeSum (children : List Trace) : Int :=
  ((children.filterMap (fun c => c.Transaction.InMsg)).map (fun m => m.FwdFee.val)).sum

/-- A message with the given source, value and forwarding fee, and an empty body. -/
def sampleMessage (source : Option AccountID) (value fwdFee : Int) : Message :=
  { Source := source, Destination := none, Value := int64.ofInt value,
    FwdFee := int64.ofInt fwdFee, Bounce := false, Bounced := false, OpCode := none,
    DecodedBody := none, Init := [], InitInterfaces := [] }

/-- A successful ordinary transaction of an active account. -/
def sampleTransaction (account : AccountID) (inMsg : Option Message) (outMsgs : List Message)
    (totalFee : Int) : Transaction :=
  { Account := account, Success := true, Type_ := TransactionType.OrdinaryTx,
    ComputePhase := none, EndStatus := AccountStatus.AccountActive,
    OrigStatus := AccountStatus.AccountActive, InMsg := inMsg, OutMsgs := outMsgs,
    TotalFee := int64.ofInt totalFee }

/-- Wallet 1 (external inbound message of value 0, total fee 100, one remaining
outbound message of value 7 and forwarding fee 1) sends 1_000_000_000 nanocoin
with forwarding fee 2 to wallet 2 (total fee 50). -/
def sampleTrace : Trace :=
  .mk (sampleTransaction (sampleAccount 1) (some (sampleMessage none 0 0))
        [sampleMessage (some (sampleAccount 1)) 7 1] 100) []
    [.mk (sampleTransaction (sampleAccount 2)
        (some (sampleMessage (some (sampleAccount 1)) 1000000000 2)) [] 50) [] [] none]
    none

/-- The value flow `fromTrace` starts with (lines 104-110): the executing
account credited with the inbound value. -/
def initialFlow (tx : Transaction) : ValueFlow :=
  ⟨AList.singleton tx.Account { AccountValueFlow.zero with Ton := int64.ofInt (inValue tx) }⟩

/-- The state of `fromTrace` after its two loops (line 133). -/
def loopsResult (tx : Transaction) (children : List Trace) : FromTraceState :=
  fromTraceChildrenLoop tx.Account children
    ⟨(tx.OutMsgs.foldl (outMsgStep tx.Account) (initialFlow tx, tx.TotalFee)).1,
     (tx.OutMsgs.foldl (outMsgStep tx.Account) (initialFlow tx, tx.TotalFee)).2, []⟩

mutual
/-- No node of the trace has remaining `OutMsgs` (a self-contained trace). -/
def noOutMsgs : Trace → Bool
  | .mk tx _ cs _ => tx.OutMsgs.isEmpty && noOutMsgsList cs
/-- No node of a list of traces has remaining `OutMsgs`. -/
def noOutMsgsList : List Trace → Bool
  | [] => true
  | c :: rest => noOutMsgs c && noOutMsgsList rest
end

mutual
/-- Sum over all nodes of the trace of the fee each node aggregates: `TotalFee`,
the `FwdFee` of its `OutMsgs` and the `FwdFee` of the `InMsg` of its children. -/
def traceFees : Trace → Int
  | .mk tx _ cs _ => tx.TotalFee.val + outFwdFeeSum tx + childInFwdFeeSum cs + traceFeesList cs
/-- Sum of `traceFees` over a list of traces. -/
def traceFeesList : List Trace → Int
  | [] => 0
  | c :: rest => traceFees c + traceFeesList rest
end

mutual
/-- Sum over all nodes of the trace of the `Value` of the remaining `OutMsgs`. -/
def traceOutValue : Trace → Int
  | .mk tx _ cs _ => outValueSum tx + traceOutValueList cs
/-- Sum of `traceOutValue` over a list of traces. -/
def traceOutValueList : List Trace → Int
  | [] => 0
  | c :: rest => traceOutValue c + traceOutValueList rest
end

/-- Stand-in for the method `BubbleTx.ToAction`, which is outside the visible
sources: no action. The value flow of the flattener does not depend on it. -/
def sampleTxActioner : actioner BubbleTx := ⟨fun _ _ => none⟩

/-- Wallet 1 (external inbound message of value 0, total fee 100, no remaining
outbound message) sends 1_000_000_000 nanocoin with forwarding fee 2 to wallet 2
(total fee 50). -/
def sampleClosedTrace : Trace :=
  .mk (sampleTransaction (sampleAccount 1) (some (sampleMessage none 0 0)) [] 100) []
    [.mk (sampleTransaction (sampleAccount 2)
        (some (sampleMessage (some (sampleAccount 1)) 1000000000 2)) [] 50) [] [] none]
    none

/-! ## `MergeContractDeployments` (`bubble.go`, lines 49-57) -/

/-- Method `(b *Bubble) MergeContractDeployments(other *Bubble)`: the receiver
after the call. A nil map of the receiver is replaced by a fresh one (lines
51-53); ranging over a nil map of `other` visits nothing; each visited entry is
assigned in the receiver's map (line 55). Nothing is written through `other`. -/
def Bubble.MergeContractDeployments {ι : Type} (b other : Bubble ι) : Bubble ι :=
  let own : DeploymentMap :=
    match b.ContractDeployments with
    | none => ∅
    | some m => m
  let otherEntries : List (Sigma fun _ : AccountID => ContractDeployment) :=
    match other.ContractDeployments with
    | none => []
    | some m => m.entries
  .mk b.Info b.Accounts b.Children b.ValueFlow
    (some (otherEntries.foldl (fun acc kv => acc.insert kv.1 kv.2) own))

/-- Reading a deployment map at an account; a nil map has no entry. -/
def deploymentOf (m : Option DeploymentMap) (account : AccountID) : Option ContractDeployment :=
  match m with
  | none => none
  | some entries => entries.lookup account

/-! ## `Action.String` (`actions.go`, lines 135-140) -/

/-- The value of a field of the struct `Action`, as obtained by reflection. -/
inductive ActionField where
  | TonTransfer (p : Option TonTransferAction)
  | SmartContractExec (p : Option SmartContractAction)
  | NftItemTransfer (p : Option NftTransferAction)
  | GetGemsNftPurchase (p : Option GetGemsNftPurchaseAction)
  | JettonTransfer (p : Option JettonTransferAction)
  | ContractDeploy (p : Option ContractDeployAction)
  | Subscription (p : Option SubscriptionAction)
  | UnSubscription (p : Option UnSubscriptionAction)
  | AuctionBid (p : Option AuctionBidAction)
  | Success (b : Bool)
  | Type_ (t : ActionType)
  | SimplePreview (s : SimplePreview)
deriving DecidableEq

/-- Go `reflect.ValueOf(a).FieldByName(name)` on the struct `Action` (fields of
lines 52-63): the field with that name, or `none` for the zero `reflect.Value`
returned when the struct has no such field. -/
def Action.FieldByName (a : Action) (name : String) : Option ActionField :=
  if name = "TonTransfer" then some (.TonTransfer a.TonTransfer)
  else if name = "SmartContractExec" then some (.SmartContractExec a.SmartContractExec)
  else if name = "NftItemTransfer" then some (.NftItemTransfer a.NftItemTransfer)
  else if name = "GetGemsNftPurchase" then some (.GetGemsNftPurchase a.GetGemsNftPurchase)
  else if name = "JettonTransfer" then some (.JettonTransfer a.JettonTransfer)
  else if name = "ContractDeploy" then some (.ContractDeploy a.ContractDeploy)
  else if name = "Subscription" then some (.Subscription a.Subscription)
  else if name = "UnSubscription" then some (.UnSubscription a.UnSubscription)
  else if name = "AuctionBid" then some (.AuctionBid a.AuctionBid)
  else if name = "Success" then some (.Success a.Success)
  else if name = "Type" then some (.Type_ a.Type_)
  else if name = "SimplePreview" then some (.SimplePreview a.SimplePreview)
  else none

/-- Method `(a Action) String`. `marshal` stands for `json.Marshal` followed by
the conversion to a string (a nil pointer is rendered, not an error); calling
`Interface()` on the zero `reflect.Value` panics, which is the result `none`. -/
def Action.String (marshal : ActionField → String) (a : Action) : Option String :=
  match a.FieldByName a.Type_ with
  | none => none
  | some f => some (a.Type_ ++ ": " ++ marshal f)

/-- The eleven declared `ActionType` constants (lines 16-26). -/
def declaredActionTypes : List ActionType :=
  [Empty, TonTransfer, SmartContractExec, NftItemTransfer, GetGemsNftPurchase,
   JettonTransfer, ContractDeploy, Subscription, UnSubscription, AuctionBid, AuctionTgInitBid]

/-! ## Specification-side notions for the adapter's tree -/

mutual
/-- All nodes of a trace: the node itself, then those of its children in order. -/
def Trace.nodes : Trace → List Trace
  | .mk tx i cs a => Trace.mk tx i cs a :: nodesOfList cs
/-- All nodes of a list of traces. -/
def nodesOfList : List Trace → List Trace
  | [] => []
  | c :: rest => c.nodes ++ nodesOfList rest
end

/-- The source account of the inbound message, when the message exists and has one. -/
def inSource (tx : Transaction) : Option AccountID :=
  match tx.InMsg with
  | some m => m.Source
  | none => none

/-- The accounts of a bubble and of all its descendants. -/
def treeAccounts {ι : Type} (b : Bubble ι) : List AccountID :=
  (b.bubbles.map Bubble.Accounts).flatten

/-- The receiving node of the bare TON transfer scenario: wallet `b` (total fee
`g`) receives 1_000_000_000 nanocoin with an empty body and forwarding fee `w`
from wallet `a`. -/
def bareTransferChild (a b : AccountID) (g w : int64) : Trace :=
  .mk { Account := b, Success := true, Type_ := TransactionType.OrdinaryTx,
        ComputePhase := none, EndStatus := AccountStatus.AccountActive,
        OrigStatus := AccountStatus.AccountActive,
        InMsg := some { sampleMessage (some a) 1000000000 0 with FwdFee := w },
        OutMsgs := [], TotalFee := g } [] [] none

/-- The two-node trace of the bare TON transfer scenario: wallet `a` (external
inbound message of value 0, total fee `f`) sends 1_000_000_000 nanocoin with an
empty body and forwarding fee `w` to wallet `b` (total fee `g`). -/
def bareTransferTrace (a b : AccountID) (f g w : int64) : Trace :=
  .mk { Account := a, Success := true, Type_ := TransactionType.OrdinaryTx,
        ComputePhase := none, EndStatus := AccountStatus.AccountActive,
        OrigStatus := AccountStatus.AccountActive,
        InMsg := some (sampleMessage none 0 0), OutMsgs := [], TotalFee := f } []
    [bareTransferChild a b g w]
    none

/-- A single transaction of account 1 whose inbound message was sent by account 1 itself. -/
def sampleSelfSendTrace : Trace :=
  .mk (sampleTransaction (sampleAccount 1)
        (some (sampleMessage (some (sampleAccount 1)) 5 0)) [] 10) [] [] none

/-- A freshly deployed account 3: the inbound message from account 1 carries the
interface `wallet`, and the account goes from uninitialised to active. -/
def sampleDeployTrace : Trace :=
  .mk { sampleTransaction (sampleAccount 3)
          (some { sampleMessage (some (sampleAccount 1)) 5 0 with InitInterfaces := ["wallet"] })
          [] 10 with OrigStatus := AccountStatus.AccountUninit } [] [] none

/-- An unsubscribe action: the `UnSubscription` variant with the type constant
`UnSubscription`. -/
def sampleUnSubscription : Action :=
  { sampleEmptyAction with
    UnSubscription := some ⟨sampleAccount 1, sampleAccount 2, sampleAccount 3⟩
    Type_ := UnSubscription }

/-- A rendering of a field value that ignores the value. -/
def sampleMarshal : ActionField → String := fun _ => "null"

/-- A deployment map holding account 1 (failed) and account 2 (successful). -/
def sampleDeploymentsA : DeploymentMap :=
  ((∅ : DeploymentMap).insert (sampleAccount 1) ⟨[], false⟩).insert (sampleAccount 2) ⟨[], true⟩

/-- A deployment map holding account 2 (with an interface) and account 3. -/
def sampleDeploymentsB : DeploymentMap :=
  ((∅ : DeploymentMap).insert (sampleAccount 2) ⟨["wallet"], true⟩).insert
    (sampleAccount 3) ⟨[], true⟩

/-- The `InitInterfaces` of the inbound message, none without an inbound message. -/
def inInitInterfaces (tx : Transaction) : List ContractInterface :=
  match tx.InMsg with
  | some m => m.InitInterfaces
  | none => []

/-! # Theorems -/

/-! ## Arithmetic of `int64` -/

theorem wrap64_val (x : int64) : wrap64 x.val = x.val := by
  have h := x.property
  unfold wrap64
  omega

theorem wrap64_wrap64_add (a b : Int) : wrap64 (wrap64 a + b) = wrap64 (a + b) := by
  unfold wrap64
  omega

theorem wrap64_add_wrap64 (a b : Int) : wrap64 (a + wrap64 b) = wrap64 (a + b) := by
  unfold wrap64
  omega

theorem int64.add_val (a b : int64) : (a + b).val = wrap64 (a.val + b.val) := rfl

theorem int64.neg_val (a : int64) : (-a).val = wrap64 (-a.val) := rfl

theorem int64.zero_val : (0 : int64).val = 0 := by decide

theorem int64.ext {a b : int64} (h : a.val = b.val) : a = b := Subtype.ext h

theorem int64.add_zero (a : int64) : a + 0 = a := by
  apply int64.ext
  rw [int64.add_val, int64.zero_val, Int.add_zero, wrap64_val]

theorem actions_all (a : Action) :
    a.actions =
      [ .ofTonTransfer a.TonTransfer, .ofSmartContract a.SmartContractExec,
        .ofNftTransfer a.NftItemTransfer, .ofGetGemsNftPurchase a.GetGemsNftPurchase,
        .ofJettonTransfer a.JettonTransfer, .ofSubscription a.Subscription ] := rfl

theorem ContributeToExtra_nil_variant (a : Action) (account : AccountID) (extra : int64)
    (h : a.NftItemTransfer = none ∨ a.JettonTransfer = none) :
    a.ContributeToExtra account extra = none := by
  unfold Action.ContributeToExtra
  rw [actions_all]
  rcases h with h | h
  · simp [contributeLoop, extraContributor.ContributeToExtra, TonTransferAction.ContributeToExtra,
      SmartContractAction.ContributeToExtra, NftTransferAction.ContributeToExtra, h]
  · cases hn : a.NftItemTransfer <;>
    simp [contributeLoop, extraContributor.ContributeToExtra, TonTransferAction.ContributeToExtra,
      SmartContractAction.ContributeToExtra, NftTransferAction.ContributeToExtra,
      GetGemsNftPurchaseAction.ContributeToExtra, JettonTransferAction.ContributeToExtra, h]

theorem getTotalHiddenAmount_fold (account : AccountID) (values : List HiddenTonValue) (t : int64) :
    (values.foldl (fun total v => if v.Account = account then total + v.Amount else total) t).val
      = wrap64 (t.val + hiddenSum account values) := by
  induction values generalizing t with
  | nil => simp [hiddenSum, wrap64_val]
  | cons v vs ih =>
    rw [List.foldl_cons, ih]
    by_cases h : v.Account = account
    · simp only [h, if_true, hiddenSum, List.filter_cons, decide_True, List.map_cons, List.sum_cons,
        int64.add_val]
      rw [wrap64_wrap64_add]
      congr 1
      ring
    · simp [h, hiddenSum, List.filter_cons]

theorem getTotalHiddenAmount_val (account : AccountID) (values : List HiddenTonValue) :
    (getTotalHiddenAmount account values).val = wrap64 (hiddenSum account values) := by
  unfold getTotalHiddenAmount
  rw [getTotalHiddenAmount_fold, int64.zero_val, Int.zero_add]

theorem add_hidden_val (account : AccountID) (values : List HiddenTonValue) (x : int64) :
    (x + getTotalHiddenAmount account values).val = wrap64 (x.val + hiddenSum account values) := by
  rw [int64.add_val, getTotalHiddenAmount_val, wrap64_add_wrap64]

theorem hiddenSum_nonneg (account : AccountID) (values : List HiddenTonValue)
    (h : ∀ v ∈ values, v.Account = account → 0 ≤ v.Amount.val) : 0 ≤ hiddenSum account values := by
  unfold hiddenSum
  apply List.sum_nonneg
  intro z hz
  simp only [List.mem_map, List.mem_filter, decide_eq_true_eq] at hz
  obtain ⟨v, ⟨hv, ha⟩, rfl⟩ := hz
  exact h v hv ha

/-! ## `ContributeToExtra`: claims C5, C6, C7 -/

/-- C5 (code defect): on an action whose only populated variant is `TonTransfer`
(neither `NftItemTransfer` nor `JettonTransfer` populated), `Action.ContributeToExtra`
does not return `extra`: the nil `*NftTransferAction` stored in the interface slice
is not skipped by `action == nil`, and its method dereferences the nil receiver. -/
theorem ContributeToExtra_tonTransfer_panics :
    sampleTonTransfer.NftItemTransfer = none ∧ sampleTonTransfer.JettonTransfer = none ∧
      sampleTonTransfer.ContributeToExtra (sampleAccount 1) 0 = none := by
  decide

/-- C6 (counterexample): a jetton transfer with hidden amounts 3 and 10 for
account 1, asked for account 1 with `x = 2^63 - 1`, returns `-2^63 + 12`, which
is smaller than `x` (overflow); an NFT transfer with the hidden amount `-5` for
account 1, asked with `x = 0`, returns `-5`. -/
theorem ContributeToExtra_not_monotone :
    JettonTransferAction.ContributeToExtra (some sampleJettonVariant) (sampleAccount 1)
        (int64.ofInt (2 ^ 63 - 1)) = some (int64.ofInt (-2 ^ 63 + 12)) ∧
      (int64.ofInt (-2 ^ 63 + 12)).val < (int64.ofInt (2 ^ 63 - 1)).val ∧
      NftTransferAction.ContributeToExtra (some sampleNegativeVariant) (sampleAccount 1) 0
        = some (int64.ofInt (-5)) ∧
      (int64.ofInt (-5)).val < (0 : int64).val := by
  decide

/-- C6 (amended): for every jetton-transfer or NFT-transfer variant, every
account and every `int64` `x`, the per-variant `ContributeToExtra(account, x)`
returns `x` plus the sum of the hidden amounts of the account's entries in
wrapping `int64` arithmetic; when those amounts are non-negative and `x` plus
their sum stays within `int64`, the result is that exact sum and is at least `x`. -/
theorem ContributeToExtra_transfer_ge (n : NftTransferAction) (j : JettonTransferAction)
    (account : AccountID) (x : int64) :
    (∃ r, NftTransferAction.ContributeToExtra (some n) account x = some r ∧
        r.val = wrap64 (x.val + hiddenSum account n.TonAttached) ∧
        ((∀ v ∈ n.TonAttached, v.Account = account → 0 ≤ v.Amount.val) →
          x.val + hiddenSum account n.TonAttached < 2 ^ 63 →
          r.val = x.val + hiddenSum account n.TonAttached ∧ x.val ≤ r.val)) ∧
      (∃ r, JettonTransferAction.ContributeToExtra (some j) account x = some r ∧
        r.val = wrap64 (x.val + hiddenSum account j.TonAttached) ∧
        ((∀ v ∈ j.TonAttached, v.Account = account → 0 ≤ v.Amount.val) →
          x.val + hiddenSum account j.TonAttached < 2 ^ 63 →
          r.val = x.val + hiddenSum account j.TonAttached ∧ x.val ≤ r.val)) := by
  have hx := x.property
  refine ⟨⟨_, rfl, add_hidden_val account n.TonAttached x, ?_⟩,
    ⟨_, rfl, add_hidden_val account j.TonAttached x, ?_⟩⟩
  · intro hn hn2
    have pn := hiddenSum_nonneg account n.TonAttached hn
    rw [add_hidden_val]
    unfold wrap64
    omega
  · intro hj hj2
    have pj := hiddenSum_nonneg account j.TonAttached hj
    rw [add_hidden_val]
    unfold wrap64
    omega

/-- Witness of the amended C6 at the sample variants, account 1 and `x = 0`:
the hidden amounts 3 and 10 of account 1 are non-negative and do not overflow. -/
theorem ContributeToExtra_transfer_ge_witness :
    (∃ r, NftTransferAction.ContributeToExtra (some sampleNftVariant) (sampleAccount 1) 0 = some r ∧
        r.val = wrap64 ((0 : int64).val + hiddenSum (sampleAccount 1) sampleNftVariant.TonAttached) ∧
        r.val = (0 : int64).val + hiddenSum (sampleAccount 1) sampleNftVariant.TonAttached ∧
        (0 : int64).val ≤ r.val) ∧
      (∃ r, JettonTransferAction.ContributeToExtra (some sampleJettonVariant) (sampleAccount 1) 0
          = some r ∧
        r.val
          = wrap64 ((0 : int64).val + hiddenSum (sampleAccount 1) sampleJettonVariant.TonAttached) ∧
        r.val = (0 : int64).val + hiddenSum (sampleAccount 1) sampleJettonVariant.TonAttached ∧
        (0 : int64).val ≤ r.val) := by
  obtain ⟨⟨r, h1, h2, h3⟩, ⟨s, k1, k2, k3⟩⟩ :=
    ContributeToExtra_transfer_ge sampleNftVariant sampleJettonVariant (sampleAccount 1) 0
  exact ⟨⟨r, h1, h2, h3 (by decide) (by decide)⟩, ⟨s, k1, k2, k3 (by decide) (by decide)⟩⟩

/-- C7 (code defect): on an action whose only populated variant is `JettonTransfer`
(respectively `NftItemTransfer`), `Action.ContributeToExtra` returns no value: the
nil pointer of the other transfer variant is called and dereferenced. -/
theorem ContributeToExtra_single_transfer_panics :
    sampleJettonTransfer.ContributeToExtra (sampleAccount 1) 0 = none ∧
      sampleNftTransfer.ContributeToExtra (sampleAccount 1) 0 = none := by
  decide

/-! ## Induction on bubble trees -/

theorem bubble_induction {ι : Type} {P : Bubble ι → Prop}
    (h : ∀ i a cs v d, (∀ c ∈ cs, P c) → P (.mk i a cs v d)) : ∀ b, P b := by
  intro b
  refine @Bubble.rec ι P (fun cs => ∀ c ∈ cs, P c) ?_ ?_ ?_ b
  · intro i a cs v d ih
    exact h i a cs v d ih
  · intro c hc
    cases hc
  · intro hd tl ihd itl c hc
    rcases List.mem_cons.mp hc with rfl | hc
    · exact ihd
    · exact itl c hc

theorem bubblesOfList_eq {ι : Type} (cs : List (Bubble ι)) :
    bubblesOfList cs = (cs.map Bubble.bubbles).flatten := by
  induction cs with
  | nil => simp [bubblesOfList]
  | cons c rest ih => simp [bubblesOfList, ih]

theorem bubbles_mk {ι : Type} (i : ι) (a : List AccountID) (cs : List (Bubble ι)) (v : ValueFlow)
    (d : Option DeploymentMap) :
    (Bubble.mk i a cs v d).bubbles = Bubble.mk i a cs v d :: (cs.map Bubble.bubbles).flatten := by
  rw [Bubble.bubbles, bubblesOfList_eq]

/-! ## The action list of the flattener: claims C1, C2, C3 -/

theorem collectChildrenLoop_actions {ι : Type} [actioner ι] (cs : List (Bubble ι))
    (forAccount : Option AccountID) (book : addressBook) (st : List Action × ValueFlow) :
    (collectChildrenLoop cs forAccount book st).1
      = st.1 ++ (cs.map (fun c => (CollectActionsAndValueFlow c forAccount book).1)).flatten := by
  induction cs generalizing st with
  | nil => simp [collectChildrenLoop]
  | cons c rest ih => simp [collectChildrenLoop, ih]

theorem collect_actions_mk {ι : Type} [actioner ι] (i : ι) (a : List AccountID)
    (cs : List (Bubble ι)) (v : ValueFlow) (d : Option DeploymentMap)
    (forAccount : Option AccountID) (book : addressBook) :
    (CollectActionsAndValueFlow (.mk i a cs v d) forAccount book).1
      = ownActions (.mk i a cs v d) forAccount book
        ++ (cs.map (fun c => (CollectActionsAndValueFlow c forAccount book).1)).flatten := by
  cases forAccount with
  | none =>
    rw [CollectActionsAndValueFlow]
    simp only [collectChildrenLoop_actions]
    congr 1
    cases h : actioner.ToAction i book <;> simp [ownActions, passesFilter, Bubble.Info, h]
  | some x =>
    rw [CollectActionsAndValueFlow]
    simp only [collectChildrenLoop_actions]
    congr 1
    by_cases hx : x ∈ a
    · cases h : actioner.ToAction i book <;>
        simp [ownActions, passesFilter, Bubble.Accounts, Bubble.Info, hx, h]
    · simp [ownActions, passesFilter, Bubble.Accounts, hx]

/-- C1: with an account filter the flattener returns an order-preserving
subsequence of the action list it returns with no filter. -/
theorem collect_filter_sublist {ι : Type} [actioner ι] (bubble : Bubble ι) (a : AccountID)
    (book : addressBook) :
    List.Sublist (CollectActionsAndValueFlow bubble (some a) book).1
      (CollectActionsAndValueFlow bubble none book).1 := by
  induction bubble using bubble_induction with
  | h i accs cs v d ih =>
    rw [collect_actions_mk, collect_actions_mk]
    apply List.Sublist.append
    · unfold ownActions
      by_cases hp : passesFilter (Bubble.mk i accs cs v d) (some a) = true
      · rw [if_pos hp, if_pos (by rfl)]
      · rw [if_neg hp]
        exact List.nil_sublist _
    · induction cs with
      | nil => simp
      | cons c rest ihr =>
        simp only [List.map_cons, List.flatten_cons]
        apply List.Sublist.append
        · exact ih c (List.mem_cons_self _ _)
        · exact ihr (fun c hc => ih c (List.mem_cons_of_mem _ hc))

/-- C2 (counterexample): on the sample tree (a root with a TON transfer whose
first child carries a jetton transfer) the flattener returns the root's action
before the child's action, while the post-order listing has it last. -/
theorem collect_not_postOrder :
    (CollectActionsAndValueFlow sampleTree none sampleBook).1
        = [sampleTonTransfer, sampleJettonTransfer] ∧
      postOrderActions sampleTree sampleBook = [sampleJettonTransfer, sampleTonTransfer] ∧
      (CollectActionsAndValueFlow sampleTree none sampleBook).1
        ≠ postOrderActions sampleTree sampleBook := by
  decide

/-- C2 (amended): the action list of the flattener is in pre-order: the action
of a bubble (when it passes the filter and is non-nil) comes first, followed by
the action lists of its children, concatenated in child order. -/
theorem collect_actions_preorder {ι : Type} [actioner ι] (bubble : Bubble ι)
    (forAccount : Option AccountID) (book : addressBook) :
    (CollectActionsAndValueFlow bubble forAccount book).1
      = ownActions bubble forAccount book
        ++ (bubble.Children.map
            (fun c => (CollectActionsAndValueFlow c forAccount book).1)).flatten := by
  cases bubble with
  | mk i a cs v d => exact collect_actions_mk i a cs v d forAccount book

theorem collect_none_length_mk {ι : Type} [actioner ι] (book : addressBook) (b : Bubble ι) :
    (ownActions b none book).length
      = ([b].filter (fun x => (actioner.ToAction x.Info book).isSome)).length := by
  cases h : actioner.ToAction b.Info book <;> simp [ownActions, passesFilter, h]

/-- C3: with `forAccount` unset, the number of actions the flattener returns is
the number of bubbles of the tree whose `Info.ToAction` is non-nil. -/
theorem collect_count {ι : Type} [actioner ι] (bubble : Bubble ι) (book : addressBook) :
    (CollectActionsAndValueFlow bubble none book).1.length
      = (bubble.bubbles.filter (fun x => (actioner.ToAction x.Info book).isSome)).length := by
  induction bubble using bubble_induction with
  | h i accs cs v d ih =>
    rw [collect_actions_mk, bubbles_mk, List.length_append, collect_none_length_mk,
      List.filter_cons, List.filter_cons]
    have hrest : ((cs.map (fun c => (CollectActionsAndValueFlow c none book).1)).flatten).length
        = (((cs.map Bubble.bubbles).flatten).filter
            (fun x => (actioner.ToAction x.Info book).isSome)).length := by
      induction cs with
      | nil => simp
      | cons c rest ihr =>
        simp only [List.map_cons, List.flatten_cons, List.length_append, List.filter_append]
        rw [ih c (List.mem_cons_self _ _), ihr (fun c hc => ih c (List.mem_cons_of_mem _ hc))]
    rw [hrest]
    by_cases hs : (actioner.ToAction (Bubble.mk i accs cs v d).Info book).isSome = true
    · simp [hs]; omega
    · simp [hs]

/-! ## Lookups in the value flow -/

theorem entry_mutate (flow : ValueFlow) (k a : AccountID)
    (f : AccountValueFlow → AccountValueFlow) :
    (flow.mutate k f).entry a = if a = k then f (flow.entry k) else flow.entry a := by
  unfold ValueFlow.mutate ValueFlow.entry
  by_cases h : a = k
  · subst h
    simp [AList.lookup_insert]
  · simp [h, AList.lookup_insert_ne h]

theorem entry_foldl_merge (l : List (Sigma fun _ : AccountID => AccountValueFlow))
    (nd : l.NodupKeys) (flow : ValueFlow) (a : AccountID) :
    (l.foldl (fun acc kv => acc.mutate kv.1 (fun e => e.add kv.2)) flow).entry a
      = match l.dlookup a with
        | some o => (flow.entry a).add o
        | none => flow.entry a := by
  induction l generalizing flow with
  | nil => simp
  | cons s rest ih =>
    obtain ⟨k, o⟩ := s
    have hnd := List.nodupKeys_cons.mp nd
    rw [List.foldl_cons, ih hnd.2, entry_mutate]
    by_cases h : a = k
    · subst h
      have hnone : List.dlookup a rest = none := List.dlookup_eq_none.mpr hnd.1
      simp [hnone, List.dlookup_cons_eq]
    · rw [List.dlookup_cons_ne rest ⟨k, o⟩ h]
      simp [h]

theorem isEmpty_eq_zero (e : AccountValueFlow) (h : e.isEmpty = true) :
    e = AccountValueFlow.zero := by
  obtain ⟨t, f, j, n⟩ := e
  simp only [AccountValueFlow.isEmpty, Bool.and_eq_true, decide_eq_true_eq,
    List.isEmpty_iff] at h
  obtain ⟨⟨⟨ht, hf⟩, hj⟩, hn⟩ := h
  have hj2 : j = ∅ := AList.ext (by simpa using hj)
  have hn2 : n = ∅ := AList.ext (by simpa using hn)
  subst ht hf hj2 hn2
  rfl

theorem dlookup_filter_getD (l : List (Sigma fun _ : AccountID => AccountValueFlow))
    (nd : l.NodupKeys) (a : AccountID) :
    ((l.filter (fun kv => !kv.2.isEmpty)).dlookup a).getD AccountValueFlow.zero
      = (l.dlookup a).getD AccountValueFlow.zero := by
  induction l with
  | nil => simp
  | cons s rest ih =>
    obtain ⟨k, o⟩ := s
    have hnd := List.nodupKeys_cons.mp nd
    by_cases h : a = k
    · subst h
      rw [List.dlookup_cons_eq]
      by_cases he : o.isEmpty = true
      · have hsub : (rest.filter (fun kv => !kv.2.isEmpty)).keys ⊆ rest.keys := by
          intro x hx
          exact (List.Sublist.map Sigma.fst (List.filter_sublist rest)).subset hx
        have hnone : List.dlookup a (rest.filter (fun kv => !kv.2.isEmpty)) = none :=
          List.dlookup_eq_none.mpr (fun hx => hnd.1 (hsub hx))
        have hz := isEmpty_eq_zero o he
        rw [List.filter_cons, if_neg (by simp [he]), hnone, hz]
        rfl
      · simp [List.filter_cons, he, List.dlookup_cons_eq]
    · by_cases he : o.isEmpty = true
      · simp only [List.filter_cons, he, Bool.not_true]
        rw [List.dlookup_cons_ne rest ⟨k, o⟩ h]
        simpa using ih hnd.2
      · simp only [List.filter_cons, he, Bool.not_false]
        rw [List.dlookup_cons_ne rest ⟨k, o⟩ h]
        rw [if_pos trivial,
          List.dlookup_cons_ne _ (⟨k, o⟩ : Sigma fun _ : AccountID => AccountValueFlow) h]
        exact ih hnd.2

theorem entry_prune (flow : ValueFlow) (a : AccountID) : flow.prune.entry a = flow.entry a := by
  unfold ValueFlow.prune ValueFlow.entry AList.lookup
  exact dlookup_filter_getD flow.Accounts.entries flow.Accounts.nodupKeys a

theorem entry_Merge (flow other : ValueFlow) (a : AccountID) :
    (flow.Merge other).entry a
      = match other.Accounts.lookup a with
        | some o => (flow.entry a).add o
        | none => flow.entry a := by
  unfold ValueFlow.Merge
  rw [entry_prune, entry_foldl_merge _ other.Accounts.nodupKeys]
  rfl

theorem tonOf_Merge (flow other : ValueFlow) (a : AccountID) :
    (flow.Merge other).tonOf a = flow.tonOf a + other.tonOf a := by
  unfold ValueFlow.tonOf
  rw [entry_Merge]
  unfold ValueFlow.entry
  cases h : other.Accounts.lookup a with
  | none => simp [AccountValueFlow.zero, int64.add_zero]
  | some o => simp [AccountValueFlow.add]

theorem feesOf_Merge (flow other : ValueFlow) (a : AccountID) :
    (flow.Merge other).feesOf a = flow.feesOf a + other.feesOf a := by
  unfold ValueFlow.feesOf
  rw [entry_Merge]
  unfold ValueFlow.entry
  cases h : other.Accounts.lookup a with
  | none => simp [AccountValueFlow.zero, int64.add_zero]
  | some o => simp [AccountValueFlow.add]

/-! ## The value flow of the flattener: claim C4 -/

theorem wrap64_sum_map_wrap64 {α : Type} (l : List α) (f : α → Int) (s : Int) :
    wrap64 (s + (l.map (fun c => wrap64 (f c))).sum) = wrap64 (s + (l.map f).sum) := by
  induction l generalizing s with
  | nil => rfl
  | cons c rest ih =>
    simp only [List.map_cons, List.sum_cons]
    have h1 := ih (s + wrap64 (f c))
    have h2 := ih (s + f c)
    have h3 : wrap64 (s + wrap64 (f c) + (rest.map f).sum) = wrap64 (s + f c + (rest.map f).sum) := by
      unfold wrap64
      omega
    rw [← Int.add_assoc, ← Int.add_assoc, h1, h3]

theorem collect_flow_mk {ι : Type} [actioner ι] (i : ι) (a : List AccountID)
    (cs : List (Bubble ι)) (v : ValueFlow) (d : Option DeploymentMap)
    (forAccount : Option AccountID) (book : addressBook) :
    ∃ acts, (CollectActionsAndValueFlow (.mk i a cs v d) forAccount book).2
      = (collectChildrenLoop cs forAccount book (acts, newValueFlow)).2.Merge v := by
  cases forAccount with
  | none =>
    rw [CollectActionsAndValueFlow]
    exact ⟨_, rfl⟩
  | some x =>
    rw [CollectActionsAndValueFlow]
    exact ⟨_, rfl⟩

theorem loop_flow_proj {ι : Type} [actioner ι] (g : ValueFlow → int64)
    (hg : ∀ f o, g (f.Merge o) = g f + g o)
    (cs : List (Bubble ι)) (forAccount : Option AccountID) (book : addressBook)
    (st : List Action × ValueFlow) :
    (g (collectChildrenLoop cs forAccount book st).2).val
      = wrap64 ((g st.2).val
          + (cs.map (fun c => (g (CollectActionsAndValueFlow c forAccount book).2).val)).sum) := by
  induction cs generalizing st with
  | nil => simp [collectChildrenLoop, wrap64_val]
  | cons c rest ih =>
    rw [collectChildrenLoop, ih]
    simp only [hg, int64.add_val, List.map_cons, List.sum_cons]
    rw [wrap64_wrap64_add, Int.add_assoc]

theorem sum_flatten_map {α : Type} (l : List (List α)) (f : α → Int) :
    (l.flatten.map f).sum = (l.map (fun xs => (xs.map f).sum)).sum := by
  induction l with
  | nil => rfl
  | cons xs rest ih =>
    simp only [List.flatten_cons, List.map_append, List.sum_append, List.map_cons, List.sum_cons, ih]

theorem collect_flow_proj {ι : Type} [actioner ι] (g : ValueFlow → int64)
    (hg : ∀ f o, g (f.Merge o) = g f + g o) (h0 : g newValueFlow = 0)
    (bubble : Bubble ι) (forAccount : Option AccountID) (book : addressBook) :
    (g (CollectActionsAndValueFlow bubble forAccount book).2).val
      = wrap64 ((bubble.bubbles.map (fun x => (g x.ValueFlow).val)).sum) := by
  induction bubble using bubble_induction with
  | h i accs cs v d ih =>
    obtain ⟨acts, hacts⟩ := collect_flow_mk i accs cs v d forAccount book
    have hmap : cs.map (fun c => (g (CollectActionsAndValueFlow c forAccount book).2).val)
        = cs.map (fun c => wrap64 ((c.bubbles.map (fun x => (g x.ValueFlow).val)).sum)) :=
      List.map_congr_left (fun c hc => ih c hc)
    have hsum := wrap64_sum_map_wrap64 cs
      (fun c => (c.bubbles.map (fun x => (g x.ValueFlow).val)).sum) (g v).val
    have hcomm : ∀ x y : Int, 0 + x + y = y + x := by intro x y; omega
    rw [hacts, hg, int64.add_val, loop_flow_proj g hg, bubbles_mk, hmap, h0, int64.zero_val,
      wrap64_wrap64_add, hcomm, hsum, List.map_cons, List.sum_cons, sum_flatten_map, List.map_map]
    rfl

theorem loop_flow_indep {ι : Type} [actioner ι] (cs : List (Bubble ι))
    (forAccount : Option AccountID) (book : addressBook)
    (ih : ∀ c ∈ cs, (CollectActionsAndValueFlow c forAccount book).2
      = (CollectActionsAndValueFlow c none book).2)
    (st st2 : List Action × ValueFlow) (hst : st.2 = st2.2) :
    (collectChildrenLoop cs forAccount book st).2 = (collectChildrenLoop cs none book st2).2 := by
  induction cs generalizing st st2 with
  | nil => simpa [collectChildrenLoop] using hst
  | cons c rest ihr =>
    rw [collectChildrenLoop, collectChildrenLoop]
    apply ihr (fun c hc => ih c (List.mem_cons_of_mem _ hc))
    simp only [hst, ih c (List.mem_cons_self _ _)]

theorem collect_flow_indep {ι : Type} [actioner ι] (bubble : Bubble ι)
    (forAccount : Option AccountID) (book : addressBook) :
    (CollectActionsAndValueFlow bubble forAccount book).2
      = (CollectActionsAndValueFlow bubble none book).2 := by
  induction bubble using bubble_induction with
  | h i accs cs v d ih =>
    obtain ⟨acts, hacts⟩ := collect_flow_mk i accs cs v d forAccount book
    obtain ⟨acts2, hacts2⟩ := collect_flow_mk i accs cs v d none book
    rw [hacts, hacts2, loop_flow_indep cs forAccount book ih (acts, newValueFlow)
      (acts2, newValueFlow) rfl]

/-- C4: the value flow returned by the flattener is the additive merge of the
local value flows of all bubbles of the tree, each counted once: for every
account its `Ton` and its `Fees` are the `int64` sums of that account's `Ton`
and `Fees` over all bubbles, and the value flow does not depend on `forAccount`. -/
theorem collect_valueFlow_sum {ι : Type} [actioner ι] (bubble : Bubble ι)
    (forAccount : Option AccountID) (book : addressBook) (a : AccountID) :
    ((CollectActionsAndValueFlow bubble forAccount book).2.tonOf a).val
        = wrap64 ((bubble.bubbles.map (fun x => (x.ValueFlow.tonOf a).val)).sum) ∧
      ((CollectActionsAndValueFlow bubble forAccount book).2.feesOf a).val
        = wrap64 ((bubble.bubbles.map (fun x => (x.ValueFlow.feesOf a).val)).sum) ∧
      (CollectActionsAndValueFlow bubble forAccount book).2
        = (CollectActionsAndValueFlow bubble none book).2 :=
  ⟨collect_flow_proj (fun f => f.tonOf a) (fun f o => tonOf_Merge f o a) rfl bubble forAccount book,
   collect_flow_proj (fun f => f.feesOf a) (fun f o => feesOf_Merge f o a) rfl bubble forAccount book,
   collect_flow_indep bubble forAccount book⟩

/-! ## The local value flow built by `fromTrace`: claims C9, C10 -/

theorem tonOf_AddTons (flow : ValueFlow) (k a : AccountID) (d : int64) :
    (flow.AddTons k d).tonOf a = if a = k then flow.tonOf k + d else flow.tonOf a := by
  unfold ValueFlow.AddTons ValueFlow.tonOf
  rw [entry_mutate]
  by_cases h : a = k <;> simp [h]

theorem feesOf_AddTons (flow : ValueFlow) (k a : AccountID) (d : int64) :
    (flow.AddTons k d).feesOf a = flow.feesOf a := by
  unfold ValueFlow.AddTons ValueFlow.feesOf
  rw [entry_mutate]
  by_cases h : a = k <;> simp [h]

theorem tonOf_SetFees (flow : ValueFlow) (k a : AccountID) (fee : int64) :
    (flow.SetFees k fee).tonOf a = flow.tonOf a := by
  unfold ValueFlow.SetFees ValueFlow.tonOf
  rw [entry_mutate]
  by_cases h : a = k <;> simp [h]

theorem feesOf_SetFees (flow : ValueFlow) (k : AccountID) (fee : int64) :
    (flow.SetFees k fee).feesOf k = fee := by
  unfold ValueFlow.SetFees ValueFlow.feesOf
  rw [entry_mutate]
  simp

theorem wrap64_sub_neg (a b : Int) : wrap64 (a + wrap64 (-b)) = wrap64 (a - b) := by
  unfold wrap64
  omega

theorem outLoop_spec (account : AccountID) (msgs : List Message) (st : ValueFlow × int64) :
    ((msgs.foldl (outMsgStep account) st).1.tonOf account).val
        = wrap64 ((st.1.tonOf account).val - (msgs.map (fun m => m.Value.val)).sum) ∧
      (msgs.foldl (outMsgStep account) st).2.val
        = wrap64 (st.2.val + (msgs.map (fun m => m.FwdFee.val)).sum) := by
  induction msgs generalizing st with
  | nil => simp [wrap64_val]
  | cons m rest ih =>
    rw [List.foldl_cons]
    obtain ⟨h1, h2⟩ := ih (outMsgStep account st m)
    rw [h1, h2]
    simp only [outMsgStep, tonOf_AddTons, if_true, int64.add_val, int64.neg_val, List.map_cons,
      List.sum_cons]
    constructor
    · unfold wrap64; omega
    · unfold wrap64; omega

theorem childLoop_spec (account : AccountID) (children : List Trace) (st : FromTraceState) :
    (((fromTraceChildrenLoop account children st).flow.tonOf account).val
        = wrap64 ((st.flow.tonOf account).val - childInValueSum children)) ∧
      (fromTraceChildrenLoop account children st).aggregatedFee.val
        = wrap64 (st.aggregatedFee.val + childInFwdFeeSum children) := by
  induction children generalizing st with
  | nil => simp [fromTraceChildrenLoop, childInValueSum, childInFwdFeeSum, wrap64_val]
  | cons c rest ih =>
    rw [fromTraceChildrenLoop]
    cases hm : c.Transaction.InMsg with
    | none =>
      obtain ⟨h1, h2⟩ := ih ⟨st.flow, st.aggregatedFee, st.children ++ [fromTrace c]⟩
      simp only [h1, h2, childInValueSum, childInFwdFeeSum, List.filterMap_cons, hm]
      exact ⟨trivial, trivial⟩
    | some m =>
      obtain ⟨h1, h2⟩ := ih ⟨st.flow.AddTons account (-m.Value), st.aggregatedFee + m.FwdFee,
        st.children ++ [fromTrace c]⟩
      simp only [h1, h2, childInValueSum, childInFwdFeeSum, List.filterMap_cons, hm,
        tonOf_AddTons, if_true, int64.add_val, int64.neg_val, List.map_cons, List.sum_cons]
      constructor
      · unfold wrap64; omega
      · unfold wrap64; omega

theorem inValue_range (tx : Transaction) : wrap64 (inValue tx) = inValue tx := by
  unfold inValue
  cases tx.InMsg with
  | none => rfl
  | some m => exact wrap64_val m.Value

theorem fromTrace_flow (tx : Transaction) (ifaces : List ContractInterface)
    (children : List Trace) (info : Option TraceAdditionalInfo) :
    (fromTrace (.mk tx ifaces children info)).ValueFlow
      = (loopsResult tx children).flow.SetFees tx.Account
          (loopsResult tx children).aggregatedFee := by
  have hin : (match tx.InMsg with
      | some msg => msg.Value
      | none => (0 : int64)) = int64.ofInt (inValue tx) := by
    unfold inValue
    cases tx.InMsg with
    | none => rfl
    | some m => exact int64.ext (wrap64_val m.Value).symm
  rw [fromTrace]
  simp only [Bubble.ValueFlow, hin, loopsResult, initialFlow]

theorem initialFlow_tonOf (tx : Transaction) :
    ((initialFlow tx).tonOf tx.Account).val = inValue tx := by
  simp [initialFlow, ValueFlow.tonOf, ValueFlow.entry, AList.lookup, AList.singleton,
    List.dlookup_cons_eq, int64.ofInt, inValue_range]

theorem initialFlow_feesOf (tx : Transaction) (a : AccountID) :
    (initialFlow tx).feesOf a = 0 := by
  unfold initialFlow ValueFlow.feesOf ValueFlow.entry AList.lookup AList.singleton
  by_cases h : a = tx.Account
  · subst h
    simp [List.dlookup_cons_eq, AccountValueFlow.zero]
  · rw [List.dlookup_cons_ne _ _ h]
    rfl

theorem loopsResult_spec (tx : Transaction) (children : List Trace) :
    (((loopsResult tx children).flow.tonOf tx.Account).val
        = wrap64 (inValue tx - outValueSum tx - childInValueSum children)) ∧
      (loopsResult tx children).aggregatedFee.val
        = wrap64 (tx.TotalFee.val + outFwdFeeSum tx + childInFwdFeeSum children) := by
  unfold loopsResult
  obtain ⟨h1, h2⟩ := childLoop_spec tx.Account children
    ⟨(tx.OutMsgs.foldl (outMsgStep tx.Account) (initialFlow tx, tx.TotalFee)).1,
     (tx.OutMsgs.foldl (outMsgStep tx.Account) (initialFlow tx, tx.TotalFee)).2, []⟩
  obtain ⟨h3, h4⟩ := outLoop_spec tx.Account tx.OutMsgs (initialFlow tx, tx.TotalFee)
  rw [h1, h2]
  simp only [h3, h4, initialFlow_tonOf, outValueSum, outFwdFeeSum]
  constructor
  · unfold wrap64; omega
  · unfold wrap64; omega

theorem fromTrace_tonOf_self (trace : Trace) :
    ((fromTrace trace).ValueFlow.tonOf trace.Transaction.Account).val
      = wrap64 (inValue trace.Transaction - outValueSum trace.Transaction
          - childInValueSum trace.Children) := by
  cases trace with
  | mk tx ifaces children info =>
    show ((fromTrace (Trace.mk tx ifaces children info)).ValueFlow.tonOf tx.Account).val = _
    rw [fromTrace_flow, tonOf_SetFees]
    exact (loopsResult_spec tx children).1

theorem fromTrace_feesOf_self (trace : Trace) :
    ((fromTrace trace).ValueFlow.feesOf trace.Transaction.Account).val
      = wrap64 (trace.Transaction.TotalFee.val + outFwdFeeSum trace.Transaction
          + childInFwdFeeSum trace.Children) := by
  cases trace with
  | mk tx ifaces children info =>
    show ((fromTrace (Trace.mk tx ifaces children info)).ValueFlow.feesOf tx.Account).val = _
    rw [fromTrace_flow, feesOf_SetFees]
    exact (loopsResult_spec tx children).2

/-- C9: for every trace node, the local value flow of the bubble built by
`fromTrace` gives the executing account `Ton = InMsg.Value` (0 without `InMsg`)
minus the sum of `Value` over all `OutMsgs`, minus the sum of `InMsg.Value` over
the children that carry an `InMsg` (the outbound messages these children
consumed), in `int64` arithmetic. -/
theorem fromTrace_local_ton (trace : Trace) :
    ((fromTrace trace).ValueFlow.tonOf trace.Transaction.Account).val
      = wrap64 (inValue trace.Transaction - outValueSum trace.Transaction
          - childInValueSum trace.Children) := by
  cases trace with
  | mk tx ifaces children info =>
    show ((fromTrace (Trace.mk tx ifaces children info)).ValueFlow.tonOf tx.Account).val = _
    rw [fromTrace_flow, tonOf_SetFees]
    exact (loopsResult_spec tx children).1

/-- C10: for every trace node, the local value flow of the bubble built by
`fromTrace` gives the executing account `Fees = TotalFee` plus the sum of `FwdFee`
over all `OutMsgs` plus the sum of `InMsg.FwdFee` over every child that has an
`InMsg`, in `int64` arithmetic; the Ton debits do not affect it. -/
theorem fromTrace_local_fees (trace : Trace) :
    ((fromTrace trace).ValueFlow.feesOf trace.Transaction.Account).val
      = wrap64 (trace.Transaction.TotalFee.val + outFwdFeeSum trace.Transaction
          + childInFwdFeeSum trace.Children) := by
  cases trace with
  | mk tx ifaces children info =>
    show ((fromTrace (Trace.mk tx ifaces children info)).ValueFlow.feesOf tx.Account).val = _
    rw [fromTrace_flow, feesOf_SetFees]
    exact (loopsResult_spec tx children).2

/-! ## Totals over all accounts of a value flow -/

theorem sum_kerase (p : AccountValueFlow → Int) (k : AccountID)
    (l : List (Sigma fun _ : AccountID => AccountValueFlow)) :
    ((l.kerase k).map (fun kv => p kv.2)).sum
      = (l.map (fun kv => p kv.2)).sum - (match l.dlookup k with
          | some e => p e
          | none => 0) := by
  induction l with
  | nil => simp
  | cons s rest ih =>
    obtain ⟨k2, e⟩ := s
    by_cases h : k = k2
    · subst h
      rw [List.kerase_cons_eq (s := (⟨k, e⟩ : Sigma fun _ : AccountID => AccountValueFlow)) rfl,
        List.dlookup_cons_eq]
      simp
    · rw [List.kerase_cons_ne h, List.dlookup_cons_ne _ _ h]
      simp only [List.map_cons, List.sum_cons, ih]
      omega

theorem sum_mutate (p : AccountValueFlow → Int) (hp : p AccountValueFlow.zero = 0)
    (flow : ValueFlow) (k : AccountID) (f : AccountValueFlow → AccountValueFlow) :
    ((flow.mutate k f).Accounts.entries.map (fun kv => p kv.2)).sum
      = (flow.Accounts.entries.map (fun kv => p kv.2)).sum - p (flow.entry k)
        + p (f (flow.entry k)) := by
  unfold ValueFlow.mutate
  rw [AList.insert_entries]
  simp only [List.map_cons, List.sum_cons, sum_kerase]
  unfold ValueFlow.entry AList.lookup
  cases h : List.dlookup k flow.Accounts.entries with
  | none => simp [hp]; omega
  | some e => simp; omega

theorem sum_prune (p : AccountValueFlow → Int) (hp : p AccountValueFlow.zero = 0)
    (flow : ValueFlow) :
    (flow.prune.Accounts.entries.map (fun kv => p kv.2)).sum
      = (flow.Accounts.entries.map (fun kv => p kv.2)).sum := by
  unfold ValueFlow.prune
  simp only
  induction flow.Accounts.entries with
  | nil => rfl
  | cons s rest ih =>
    by_cases he : s.2.isEmpty = true
    · have hz := isEmpty_eq_zero s.2 he
      rw [List.filter_cons, if_neg (by simp [he]), ih, List.map_cons, List.sum_cons, hz, hp,
        Int.zero_add]
    · simp only [List.filter_cons, he, Bool.not_false, List.map_cons, List.sum_cons, ih, if_true]

theorem sum_foldl_merge (p : AccountValueFlow → int64) (hp : p AccountValueFlow.zero = 0)
    (hadd : ∀ e o, p (e.add o) = p e + p o)
    (l : List (Sigma fun _ : AccountID => AccountValueFlow)) (flow : ValueFlow) :
    wrap64 (((l.foldl (fun acc kv => acc.mutate kv.1 (fun e => e.add kv.2)) flow).Accounts.entries.map
        (fun kv => (p kv.2).val)).sum)
      = wrap64 ((flow.Accounts.entries.map (fun kv => (p kv.2).val)).sum
          + (l.map (fun kv => (p kv.2).val)).sum) := by
  induction l generalizing flow with
  | nil => simp
  | cons s rest ih =>
    rw [List.foldl_cons, ih, sum_mutate (fun e => (p e).val) (by simp [hp, int64.zero_val])]
    simp only [hadd, int64.add_val, List.map_cons, List.sum_cons]
    unfold wrap64
    omega

theorem totalTon_Merge (flow other : ValueFlow) :
    wrap64 (flow.Merge other).totalTon = wrap64 (flow.totalTon + other.totalTon) := by
  unfold ValueFlow.totalTon ValueFlow.Merge
  rw [sum_prune (fun e => e.Ton.val) (by decide)]
  exact sum_foldl_merge (fun e => e.Ton) rfl (fun _ _ => rfl) other.Accounts.entries flow

theorem totalFees_Merge (flow other : ValueFlow) :
    wrap64 (flow.Merge other).totalFees = wrap64 (flow.totalFees + other.totalFees) := by
  unfold ValueFlow.totalFees ValueFlow.Merge
  rw [sum_prune (fun e => e.Fees.val) (by decide)]
  exact sum_foldl_merge (fun e => e.Fees) rfl (fun _ _ => rfl) other.Accounts.entries flow

theorem wrap64_sum_congr {α : Type} (l : List α) (u w : α → Int)
    (h : ∀ c ∈ l, wrap64 (u c) = wrap64 (w c)) (s : Int) :
    wrap64 (s + (l.map u).sum) = wrap64 (s + (l.map w).sum) := by
  induction l generalizing s with
  | nil => rfl
  | cons c rest ih =>
    simp only [List.map_cons, List.sum_cons]
    have h1 := ih (fun x hx => h x (List.mem_cons_of_mem _ hx)) (s + u c)
    have h2 := h c (List.mem_cons_self _ _)
    have h3 : wrap64 (s + u c + (rest.map w).sum) = wrap64 (s + w c + (rest.map w).sum) := by
      unfold wrap64 at h2 ⊢
      omega
    rw [← Int.add_assoc, ← Int.add_assoc, h1, h3]

theorem loop_flow_total {ι : Type} [actioner ι] (g : ValueFlow → Int)
    (hg : ∀ f o, wrap64 (g (f.Merge o)) = wrap64 (g f + g o))
    (cs : List (Bubble ι)) (forAccount : Option AccountID) (book : addressBook)
    (st : List Action × ValueFlow) :
    wrap64 (g (collectChildrenLoop cs forAccount book st).2)
      = wrap64 (g st.2
          + (cs.map (fun c => g (CollectActionsAndValueFlow c forAccount book).2)).sum) := by
  induction cs generalizing st with
  | nil => simp [collectChildrenLoop]
  | cons c rest ih =>
    rw [collectChildrenLoop, ih]
    simp only [List.map_cons, List.sum_cons]
    have h := hg st.2 (CollectActionsAndValueFlow c forAccount book).2
    unfold wrap64 at h ⊢
    omega

theorem collect_flow_total {ι : Type} [actioner ι] (g : ValueFlow → Int)
    (hg : ∀ f o, wrap64 (g (f.Merge o)) = wrap64 (g f + g o)) (h0 : g newValueFlow = 0)
    (bubble : Bubble ι) (forAccount : Option AccountID) (book : addressBook) :
    wrap64 (g (CollectActionsAndValueFlow bubble forAccount book).2)
      = wrap64 ((bubble.bubbles.map (fun x => g x.ValueFlow)).sum) := by
  induction bubble using bubble_induction with
  | h i accs cs v d ih =>
    obtain ⟨acts, hacts⟩ := collect_flow_mk i accs cs v d forAccount book
    have hloop := loop_flow_total g hg cs forAccount book (acts, newValueFlow)
    have hsum := wrap64_sum_congr cs
      (fun c => g (CollectActionsAndValueFlow c forAccount book).2)
      (fun c => (c.bubbles.map (fun x => g x.ValueFlow)).sum) ih (g v)
    have hm := hg (collectChildrenLoop cs forAccount book (acts, newValueFlow)).2 v
    rw [hacts, bubbles_mk, List.map_cons, List.sum_cons, sum_flatten_map, List.map_map]
    simp only [h0] at hloop
    show wrap64 (g ((collectChildrenLoop cs forAccount book (acts, newValueFlow)).2.Merge v))
      = wrap64 (g v + (cs.map (fun c => (c.bubbles.map (fun x => g x.ValueFlow)).sum)).sum)
    rw [← hsum]
    unfold wrap64 at hm hloop ⊢
    omega

/-! ## Conservation over a whole trace: claim C8 -/

theorem trace_induction {P : Trace → Prop}
    (h : ∀ tx i cs a, (∀ c ∈ cs, P c) → P (.mk tx i cs a)) : ∀ t, P t := by
  intro t
  refine @Trace.rec P (fun cs => ∀ c ∈ cs, P c) ?_ ?_ ?_ t
  · intro tx i cs a ih
    exact h tx i cs a ih
  · intro c hc
    cases hc
  · intro hd tl ihd itl c hc
    rcases List.mem_cons.mp hc with rfl | hc
    · exact ihd
    · exact itl c hc

theorem traceFeesList_eq (cs : List Trace) : traceFeesList cs = (cs.map traceFees).sum := by
  induction cs with
  | nil => rfl
  | cons c rest ih => simp [traceFeesList, ih]

theorem traceOutValueList_eq (cs : List Trace) :
    traceOutValueList cs = (cs.map traceOutValue).sum := by
  induction cs with
  | nil => rfl
  | cons c rest ih => simp [traceOutValueList, ih]

theorem noOutMsgsList_mem (cs : List Trace) (h : noOutMsgsList cs = true) :
    ∀ c ∈ cs, noOutMsgs c = true := by
  induction cs with
  | nil => intro c hc; cases hc
  | cons d rest ih =>
    simp only [noOutMsgsList, Bool.and_eq_true] at h
    intro c hc
    rcases List.mem_cons.mp hc with rfl | hc
    · exact h.1
    · exact ih h.2 c hc

theorem childInValueSum_eq (cs : List Trace) :
    childInValueSum cs = (cs.map (fun c => inValue c.Transaction)).sum := by
  induction cs with
  | nil => rfl
  | cons c rest ih =>
    unfold childInValueSum at ih ⊢
    cases hm : c.Transaction.InMsg with
    | none => simp [List.filterMap_cons, hm, inValue, ih]
    | some m => simp [List.filterMap_cons, hm, inValue, ih]

theorem single_mutate (k : AccountID) (e : AccountValueFlow)
    (f : AccountValueFlow → AccountValueFlow) :
    (⟨AList.singleton k e⟩ : ValueFlow).mutate k f = ⟨AList.singleton k (f e)⟩ := by
  unfold ValueFlow.mutate ValueFlow.entry
  congr 1
  apply AList.ext
  simp [AList.insert_entries, AList.lookup, AList.singleton, List.dlookup_cons_eq,
    List.kerase_cons_eq]

theorem outLoop_single (account : AccountID) (msgs : List Message) (st : ValueFlow × int64)
    (h : ∃ e, st.1 = ⟨AList.singleton account e⟩) :
    ∃ e, (msgs.foldl (outMsgStep account) st).1 = ⟨AList.singleton account e⟩ := by
  induction msgs generalizing st with
  | nil => simpa using h
  | cons m rest ih =>
    rw [List.foldl_cons]
    apply ih
    obtain ⟨e, he⟩ := h
    simp only [outMsgStep, he, ValueFlow.AddTons, single_mutate]
    exact ⟨_, rfl⟩

theorem childLoop_single (account : AccountID) (children : List Trace) (st : FromTraceState)
    (h : ∃ e, st.flow = ⟨AList.singleton account e⟩) :
    ∃ e, (fromTraceChildrenLoop account children st).flow = ⟨AList.singleton account e⟩ := by
  induction children generalizing st with
  | nil => simpa [fromTraceChildrenLoop] using h
  | cons c rest ih =>
    rw [fromTraceChildrenLoop]
    apply ih
    obtain ⟨e, he⟩ := h
    cases hm : c.Transaction.InMsg with
    | none => exact ⟨e, he⟩
    | some m =>
      simp only [he, ValueFlow.AddTons, single_mutate]
      exact ⟨_, rfl⟩

theorem fromTrace_flow_single (trace : Trace) :
    ∃ e, (fromTrace trace).ValueFlow = ⟨AList.singleton trace.Transaction.Account e⟩ := by
  cases trace with
  | mk tx ifaces children info =>
    rw [fromTrace_flow]
    obtain ⟨e, he⟩ := childLoop_single tx.Account children
      ⟨(tx.OutMsgs.foldl (outMsgStep tx.Account) (initialFlow tx, tx.TotalFee)).1,
       (tx.OutMsgs.foldl (outMsgStep tx.Account) (initialFlow tx, tx.TotalFee)).2, []⟩
      (outLoop_single tx.Account tx.OutMsgs (initialFlow tx, tx.TotalFee) ⟨_, rfl⟩)
    unfold loopsResult
    rw [he]
    simp only [ValueFlow.SetFees, single_mutate]
    exact ⟨_, rfl⟩

theorem fromTrace_totals (trace : Trace) :
    (fromTrace trace).ValueFlow.totalTon
        = ((fromTrace trace).ValueFlow.tonOf trace.Transaction.Account).val ∧
      (fromTrace trace).ValueFlow.totalFees
        = ((fromTrace trace).ValueFlow.feesOf trace.Transaction.Account).val := by
  obtain ⟨e, he⟩ := fromTrace_flow_single trace
  rw [he]
  simp [ValueFlow.totalTon, ValueFlow.totalFees, ValueFlow.tonOf, ValueFlow.feesOf,
    ValueFlow.entry, AList.lookup, AList.singleton, List.dlookup_cons_eq]

theorem childLoop_children (account : AccountID) (children : List Trace) (st : FromTraceState) :
    (fromTraceChildrenLoop account children st).children
      = st.children ++ children.map fromTrace := by
  induction children generalizing st with
  | nil => simp [fromTraceChildrenLoop]
  | cons c rest ih =>
    rw [fromTraceChildrenLoop, ih]
    simp

theorem fromTrace_children (trace : Trace) :
    (fromTrace trace).Children = trace.Children.map fromTrace := by
  cases trace with
  | mk tx ifaces children info =>
    rw [fromTrace]
    simp only [Bubble.Children, Trace.Children, childLoop_children, List.nil_append]

theorem bubbles_eq {ι : Type} (b : Bubble ι) :
    b.bubbles = b :: (b.Children.map Bubble.bubbles).flatten := by
  cases b with
  | mk i a cs v d => exact bubbles_mk i a cs v d

theorem fromTrace_sum (g : ValueFlow → Int) (trace : Trace) :
    ((fromTrace trace).bubbles.map (fun x => g x.ValueFlow)).sum
      = g (fromTrace trace).ValueFlow
        + (trace.Children.map
            (fun c => ((fromTrace c).bubbles.map (fun x => g x.ValueFlow)).sum)).sum := by
  rw [bubbles_eq, fromTrace_children, List.map_cons, List.sum_cons, sum_flatten_map,
    List.map_map, List.map_map]
  rfl

theorem transaction_mk (tx : Transaction) (i : List ContractInterface) (cs : List Trace)
    (a : Option TraceAdditionalInfo) : (Trace.mk tx i cs a).Transaction = tx := rfl

theorem children_mk (tx : Transaction) (i : List ContractInterface) (cs : List Trace)
    (a : Option TraceAdditionalInfo) : (Trace.mk tx i cs a).Children = cs := rfl

theorem sum_map_sub {α : Type} (l : List α) (u w : α → Int) :
    (l.map (fun c => u c - w c)).sum = (l.map u).sum - (l.map w).sum := by
  induction l with
  | nil => rfl
  | cons c rest ih =>
    simp only [List.map_cons, List.sum_cons, ih]
    omega

theorem fromTrace_tree_ton (trace : Trace) :
    wrap64 (((fromTrace trace).bubbles.map (fun x => x.ValueFlow.totalTon)).sum)
      = wrap64 (inValue trace.Transaction - traceOutValue trace) := by
  induction trace using trace_induction with
  | h tx ifaces cs info ih =>
    have hloc := fromTrace_tonOf_self (.mk tx ifaces cs info)
    have htot := (fromTrace_totals (.mk tx ifaces cs info)).1
    have hsum := wrap64_sum_congr cs
      (fun c => ((fromTrace c).bubbles.map (fun x => x.ValueFlow.totalTon)).sum)
      (fun c => inValue c.Transaction - traceOutValue c) ih
      ((fromTrace (.mk tx ifaces cs info)).ValueFlow.totalTon)
    have hsub := sum_map_sub cs (fun c => inValue c.Transaction) traceOutValue
    rw [fromTrace_sum]
    simp only [transaction_mk, children_mk] at hloc htot hsum ⊢
    rw [hsum, hsub, htot, hloc, traceOutValue, traceOutValueList_eq, childInValueSum_eq]
    unfold wrap64
    omega

theorem fromTrace_tree_fees (trace : Trace) :
    wrap64 (((fromTrace trace).bubbles.map (fun x => x.ValueFlow.totalFees)).sum)
      = wrap64 (traceFees trace) := by
  induction trace using trace_induction with
  | h tx ifaces cs info ih =>
    have hloc := fromTrace_feesOf_self (.mk tx ifaces cs info)
    have htot := (fromTrace_totals (.mk tx ifaces cs info)).2
    have hsum := wrap64_sum_congr cs
      (fun c => ((fromTrace c).bubbles.map (fun x => x.ValueFlow.totalFees)).sum)
      traceFees ih ((fromTrace (.mk tx ifaces cs info)).ValueFlow.totalFees)
    rw [fromTrace_sum]
    simp only [transaction_mk, children_mk] at hloc htot hsum ⊢
    rw [hsum, htot, hloc, traceFees, traceFeesList_eq]
    unfold wrap64
    omega

theorem noOutMsgs_outValue (trace : Trace) (h : noOutMsgs trace = true) :
    traceOutValue trace = 0 := by
  induction trace using trace_induction with
  | h tx ifaces cs info ih =>
    simp only [noOutMsgs, Bool.and_eq_true, List.isEmpty_iff] at h
    have hcs : (cs.map traceOutValue).sum = 0 := by
      have hall := noOutMsgsList_mem cs h.2
      clear h
      induction cs with
      | nil => rfl
      | cons c rest ihr =>
        simp only [List.map_cons, List.sum_cons]
        rw [ih c (List.mem_cons_self _ _) (hall c (List.mem_cons_self _ _)),
          ihr (fun c hc => ih c (List.mem_cons_of_mem _ hc))
            (fun c hc => hall c (List.mem_cons_of_mem _ hc))]
        rfl
    rw [traceOutValue, traceOutValueList_eq, hcs, outValueSum, h.1]
    rfl

theorem collect_fromTrace_ton [actioner BubbleTx] (trace : Trace)
    (forAccount : Option AccountID) (book : addressBook) :
    wrap64 (CollectActionsAndValueFlow (FromTrace trace) forAccount book).2.totalTon
      = wrap64 (inValue trace.Transaction - traceOutValue trace) := by
  rw [← fromTrace_tree_ton]
  exact collect_flow_total ValueFlow.totalTon totalTon_Merge rfl (fromTrace trace) forAccount book

theorem collect_fromTrace_fees [actioner BubbleTx] (trace : Trace)
    (forAccount : Option AccountID) (book : addressBook) :
    wrap64 (CollectActionsAndValueFlow (FromTrace trace) forAccount book).2.totalFees
      = wrap64 (traceFees trace) := by
  rw [← fromTrace_tree_fees]
  exact collect_flow_total ValueFlow.totalFees totalFees_Merge rfl (fromTrace trace) forAccount book

set_option maxRecDepth 100000 in
/-- C8 (counterexample): on the self-contained two-node trace in which wallet 1
(inbound value 0, total fee 100) sends 1_000_000_000 to wallet 2 (forwarding fee
2, total fee 50), the collected value flow has `Σ Ton = 0` and `Σ Fees = 152`, so
`Σ (Ton + Fees) = 152`, not the root's inbound value 0. -/
theorem conservation_with_fees_fails :
    noOutMsgs sampleClosedTrace = true ∧
      inValue sampleClosedTrace.Transaction = 0 ∧
      (@CollectActionsAndValueFlow BubbleTx sampleTxActioner (FromTrace sampleClosedTrace)
          none sampleBook).2.totalTon
        + (@CollectActionsAndValueFlow BubbleTx sampleTxActioner (FromTrace sampleClosedTrace)
          none sampleBook).2.totalFees = 152 ∧
      wrap64 152 ≠ wrap64 (inValue sampleClosedTrace.Transaction) := by
  decide

/-- C8 (amended): for every trace with no remaining `OutMsgs`, in the value flow
collected over `FromTrace(trace)` the sum over all accounts of `Ton + Fees` equals,
in `int64` arithmetic, the value of the root's inbound message plus the fees
aggregated by all nodes (`TotalFee` and the `FwdFee` of every child's `InMsg`). -/
theorem conservation_with_fees [actioner BubbleTx] (trace : Trace)
    (forAccount : Option AccountID) (book : addressBook) (h : noOutMsgs trace = true) :
    wrap64 ((CollectActionsAndValueFlow (FromTrace trace) forAccount book).2.totalTon
        + (CollectActionsAndValueFlow (FromTrace trace) forAccount book).2.totalFees)
      = wrap64 (inValue trace.Transaction + traceFees trace) := by
  have h1 := collect_fromTrace_ton trace forAccount book
  have h2 := collect_fromTrace_fees trace forAccount book
  rw [noOutMsgs_outValue trace h] at h1
  unfold wrap64 at h1 h2 ⊢
  omega

set_option maxRecDepth 100000 in
/-- Witness of the amended C8 on the self-contained two-node sample trace. -/
theorem conservation_with_fees_witness :
    noOutMsgs sampleClosedTrace = true ∧
      wrap64 ((@CollectActionsAndValueFlow BubbleTx sampleTxActioner (FromTrace sampleClosedTrace)
            none sampleBook).2.totalTon
          + (@CollectActionsAndValueFlow BubbleTx sampleTxActioner (FromTrace sampleClosedTrace)
            none sampleBook).2.totalFees)
        = wrap64 (inValue sampleClosedTrace.Transaction + traceFees sampleClosedTrace) :=
  ⟨by decide, @conservation_with_fees sampleTxActioner sampleClosedTrace none sampleBook (by decide)⟩

/-! ## The adapter mirrors the trace: claim C11 -/

theorem nodesOfList_eq (cs : List Trace) : nodesOfList cs = (cs.map Trace.nodes).flatten := by
  induction cs with
  | nil => simp [nodesOfList]
  | cons c rest ih => simp [nodesOfList, ih]

theorem nodes_eq (t : Trace) : t.nodes = t :: (t.Children.map Trace.nodes).flatten := by
  cases t with
  | mk tx i cs a => rw [Trace.nodes, nodesOfList_eq, children_mk]

theorem fromTrace_bubbles (trace : Trace) :
    (fromTrace trace).bubbles = trace.nodes.map fromTrace := by
  induction trace using trace_induction with
  | h tx ifaces cs info ih =>
    rw [bubbles_eq, fromTrace_children, nodes_eq, children_mk, List.map_cons, List.map_flatten,
      List.map_map, List.map_map]
    congr 2
    exact List.map_congr_left (fun c hc => ih c hc)

/-- C11: `FromTrace` mirrors the trace tree: the children of the bubble of a
node are the bubbles of the node's children, in the same order and number, and
the bubbles of the whole tree are the bubbles of the trace's nodes, one per node. -/
theorem FromTrace_mirrors_trace (trace : Trace) :
    (FromTrace trace).Children = trace.Children.map fromTrace ∧
      (FromTrace trace).Children.length = trace.Children.length ∧
      (FromTrace trace).bubbles = trace.nodes.map fromTrace ∧
      (FromTrace trace).bubbles.length = trace.nodes.length := by
  unfold FromTrace
  refine ⟨fromTrace_children trace, ?_, fromTrace_bubbles trace, ?_⟩
  · rw [fromTrace_children, List.length_map]
  · rw [fromTrace_bubbles, List.length_map]

/-! ## Deployments and accounts of a bubble: claims C12, C13, C14, C15 -/

theorem lookup_singleton_deployment (k a : AccountID) (v : ContractDeployment) :
    AList.lookup a (AList.singleton k v : DeploymentMap) = if a = k then some v else none := by
  rw [← AList.insert_empty]
  by_cases h : a = k
  · subst h
    rw [AList.lookup_insert, if_pos rfl]
  · rw [AList.lookup_insert_ne h, AList.lookup_empty, if_neg h]

/-- C12: the bubble built by `fromTrace` has a deployment entry for an account
exactly when the account is the executing account, `EndStatus` is active and
`OrigStatus` is not; the entry carries the node's success flag and the
`InitInterfaces` of the inbound message (none without an inbound message). -/
theorem fromTrace_deployments (trace : Trace) (a : AccountID) :
    deploymentOf (fromTrace trace).ContractDeployments a
      = if a = trace.Transaction.Account
            ∧ trace.Transaction.EndStatus = AccountStatus.AccountActive
            ∧ trace.Transaction.OrigStatus ≠ AccountStatus.AccountActive then
          some { initInterfaces := inInitInterfaces trace.Transaction
                 success := trace.Transaction.Success }
        else none := by
  cases trace with
  | mk tx ifaces cs info =>
    rw [fromTrace]
    simp only [Bubble.ContractDeployments, deploymentOf, transaction_mk, inInitInterfaces]
    by_cases hd : tx.EndStatus = AccountStatus.AccountActive
        ∧ tx.OrigStatus ≠ AccountStatus.AccountActive
    · by_cases ha : a = tx.Account
      · subst ha
        cases hm : tx.InMsg <;> simp [hd.1, hd.2, lookup_singleton_deployment]
      · cases hm : tx.InMsg <;>
          simp [hd.1, hd.2, ha, lookup_singleton_deployment]
    · have hc : (decide (tx.EndStatus = AccountStatus.AccountActive)
          && decide (tx.OrigStatus ≠ AccountStatus.AccountActive)) = false := by
        simpa using hd
      have hn : ¬ (a = tx.Account ∧ tx.EndStatus = AccountStatus.AccountActive
          ∧ tx.OrigStatus ≠ AccountStatus.AccountActive) := fun h => hd h.2
      rw [hc, if_neg hn]
      simp [AList.lookup_empty]

theorem fromTrace_accounts (trace : Trace) :
    (fromTrace trace).Accounts
      = match inSource trace.Transaction with
        | some s => [trace.Transaction.Account, s]
        | none => [trace.Transaction.Account] := by
  cases trace with
  | mk tx ifaces cs info =>
    rw [fromTrace]
    simp only [Bubble.Accounts, transaction_mk, inSource]
    cases hm : tx.InMsg with
    | none => rfl
    | some m => cases hs : m.Source <;> simp [hs]

/-- C13: as a set, the `Accounts` of the bubble built by `fromTrace` are the
executing account and, when the inbound message exists and has a source, that
source; nothing else. -/
theorem fromTrace_accounts_set (trace : Trace) (a : AccountID) :
    a ∈ (fromTrace trace).Accounts
      ↔ a = trace.Transaction.Account
        ∨ ∃ m, trace.Transaction.InMsg = some m ∧ m.Source = some a := by
  rw [fromTrace_accounts]
  unfold inSource
  cases hm : trace.Transaction.InMsg with
  | none => simp
  | some m =>
    cases hs : m.Source with
    | none => simp [hs]
    | some s =>
      simp only [List.mem_cons, List.mem_singleton, List.not_mem_nil, or_false, Option.some.injEq,
        exists_eq_left', hs]
      constructor
      · rintro (h | h)
        · exact Or.inl h
        · exact Or.inr h.symm
      · rintro (h | h)
        · exact Or.inl h
        · exact Or.inr h.symm

theorem mem_bubbles_fromTrace (trace : Trace) (b : Bubble BubbleTx)
    (hb : b ∈ (fromTrace trace).bubbles) : ∃ n ∈ trace.nodes, b = fromTrace n := by
  rw [fromTrace_bubbles] at hb
  obtain ⟨n, hn, rfl⟩ := List.mem_map.mp hb
  exact ⟨n, hn, rfl⟩

theorem self_mem_bubbles {ι : Type} (b : Bubble ι) : b ∈ b.bubbles := by
  rw [bubbles_eq]
  exact List.mem_cons_self _ _

theorem fromTrace_accounts_nodup (trace : Trace) :
    (fromTrace trace).Accounts.Nodup
      ↔ inSource trace.Transaction ≠ some trace.Transaction.Account := by
  rw [fromTrace_accounts]
  cases hs : inSource trace.Transaction with
  | none => simp
  | some s =>
    simp only [List.nodup_cons, List.mem_singleton, List.not_mem_nil, not_false_eq_true,
      List.nodup_nil, and_self, and_true, ne_eq, Option.some.injEq]
    constructor
    · intro h e
      exact h e.symm
    · intro h e
      exact h e.symm

/-- C14 (counterexample): for the transaction of account 1 whose inbound message
was sent by account 1 itself, the bubble's `Accounts` list is `[1, 1]`, which
holds account 1 twice. -/
theorem accounts_duplicate_on_self_send :
    (FromTrace sampleSelfSendTrace).Accounts = [sampleAccount 1, sampleAccount 1] ∧
      ¬ (FromTrace sampleSelfSendTrace).Accounts.Nodup := by
  decide

/-- C14 (amended): every bubble of the tree built by `FromTrace` is the bubble
of a trace node, and its `Accounts` list is duplicate-free exactly when the
source of the node's inbound message (if any) is not the executing account. -/
theorem accounts_nodup_iff (trace : Trace) (b : Bubble BubbleTx)
    (hb : b ∈ (FromTrace trace).bubbles) :
    ∃ n ∈ trace.nodes, b = fromTrace n ∧
      (b.Accounts.Nodup ↔ inSource n.Transaction ≠ some n.Transaction.Account) := by
  obtain ⟨n, hn, rfl⟩ := mem_bubbles_fromTrace trace b hb
  exact ⟨n, hn, rfl, fromTrace_accounts_nodup n⟩

/-- Witness of the amended C14 at the root bubble of the two-node sample trace. -/
theorem accounts_nodup_iff_witness :
    ∃ n ∈ sampleClosedTrace.nodes, FromTrace sampleClosedTrace = fromTrace n ∧
      ((FromTrace sampleClosedTrace).Accounts.Nodup
        ↔ inSource n.Transaction ≠ some n.Transaction.Account) :=
  accounts_nodup_iff sampleClosedTrace (FromTrace sampleClosedTrace)
    (self_mem_bubbles (FromTrace sampleClosedTrace))

theorem fromTrace_flow_keys (trace : Trace) :
    (fromTrace trace).ValueFlow.Accounts.keys = [trace.Transaction.Account] := by
  obtain ⟨e, he⟩ := fromTrace_flow_single trace
  rw [he]
  exact AList.keys_singleton _ _

theorem accounts_subset_treeAccounts {ι : Type} (b : Bubble ι) (a : AccountID)
    (ha : a ∈ b.Accounts) : a ∈ treeAccounts b := by
  unfold treeAccounts
  rw [bubbles_eq, List.map_cons, List.flatten_cons]
  exact List.mem_append_left _ ha

theorem self_mem_accounts (trace : Trace) :
    trace.Transaction.Account ∈ (fromTrace trace).Accounts := by
  rw [fromTrace_accounts]
  cases inSource trace.Transaction <;> simp

set_option maxRecDepth 100000 in
/-- C15 (counterexample): for the root bubble of the two-node sample trace
(wallet 1 sends to wallet 2), account 2 is among the accounts of the bubble's
descendants, while the keys of the bubble's value flow are just account 1. -/
theorem flow_keys_differ_from_accounts :
    sampleAccount 2 ∈ treeAccounts (FromTrace sampleClosedTrace) ∧
      (FromTrace sampleClosedTrace).ValueFlow.Accounts.keys = [sampleAccount 1] ∧
      sampleAccount 2 ∉ (FromTrace sampleClosedTrace).ValueFlow.Accounts.keys := by
  decide

/-- C15 (amended): every bubble of the tree built by `FromTrace` is the bubble
of a trace node; the keys of its value flow are exactly the executing account of
that node, and every key belongs to the union of the bubble's `Accounts` and its
descendants' `Accounts`. -/
theorem flow_keys_self (trace : Trace) (b : Bubble BubbleTx)
    (hb : b ∈ (FromTrace trace).bubbles) :
    ∃ n ∈ trace.nodes, b = fromTrace n ∧
      b.ValueFlow.Accounts.keys = [n.Transaction.Account] ∧
      ∀ a ∈ b.ValueFlow.Accounts.keys, a ∈ treeAccounts b := by
  obtain ⟨n, hn, rfl⟩ := mem_bubbles_fromTrace trace b hb
  refine ⟨n, hn, rfl, fromTrace_flow_keys n, ?_⟩
  intro a ha
  rw [fromTrace_flow_keys, List.mem_singleton] at ha
  subst ha
  exact accounts_subset_treeAccounts _ _ (self_mem_accounts n)

/-- Witness of the amended C15 at the root bubble of the two-node sample trace. -/
theorem flow_keys_self_witness :
    ∃ n ∈ sampleClosedTrace.nodes, FromTrace sampleClosedTrace = fromTrace n ∧
      (FromTrace sampleClosedTrace).ValueFlow.Accounts.keys = [n.Transaction.Account] ∧
      ∀ a ∈ (FromTrace sampleClosedTrace).ValueFlow.Accounts.keys,
        a ∈ treeAccounts (FromTrace sampleClosedTrace) :=
  flow_keys_self sampleClosedTrace (FromTrace sampleClosedTrace)
    (self_mem_bubbles (FromTrace sampleClosedTrace))

/-! ## The action list as a filtered pre-order enumeration: claim C17 -/

/-- C17: the action list of the flattener is the pre-order enumeration of the
tree (`Bubble.bubbles`), restricted to the bubbles that pass the account filter
on their own `Accounts`, mapped to their non-nil actions; descendants of a bubble
that fails the filter are still enumerated. -/
theorem collect_actions_enumeration {ι : Type} [actioner ι] (bubble : Bubble ι)
    (forAccount : Option AccountID) (book : addressBook) :
    (CollectActionsAndValueFlow bubble forAccount book).1
      = (bubble.bubbles.filter (fun x => passesFilter x forAccount)).filterMap
          (fun x => actioner.ToAction x.Info book) := by
  induction bubble using bubble_induction with
  | h i accs cs v d ih =>
    rw [collect_actions_mk, bubbles_mk, List.filter_cons]
    have hrest : (cs.map (fun c => (CollectActionsAndValueFlow c forAccount book).1)).flatten
        = (((cs.map Bubble.bubbles).flatten).filter (fun x => passesFilter x forAccount)).filterMap
            (fun x => actioner.ToAction x.Info book) := by
      induction cs with
      | nil => rfl
      | cons c rest ihr =>
        simp only [List.map_cons, List.flatten_cons, List.filter_append, List.filterMap_append]
        rw [ih c (List.mem_cons_self _ _), ihr (fun c hc => ih c (List.mem_cons_of_mem _ hc))]
    rw [hrest]
    unfold ownActions
    by_cases hp : passesFilter (Bubble.mk i accs cs v d) forAccount = true
    · rw [if_pos hp, if_pos hp, List.filterMap_cons]
      cases h : actioner.ToAction (Bubble.mk i accs cs v d).Info book <;> simp
    · rw [if_neg hp, if_neg hp, List.nil_append]

/-! ## Scenario and conservation of `Ton`: claims C16, C18 -/

theorem fromTrace_entry_other (trace : Trace) (a : AccountID)
    (ha : a ≠ trace.Transaction.Account) :
    (fromTrace trace).ValueFlow.entry a = AccountValueFlow.zero := by
  obtain ⟨e, he⟩ := fromTrace_flow_single trace
  rw [he]
  unfold ValueFlow.entry AList.lookup AList.singleton
  rw [List.dlookup_cons_ne _ _ ha]
  rfl

theorem bareTransfer_bubbles (a b : AccountID) (f g w : int64) :
    (fromTrace (bareTransferTrace a b f g w)).bubbles
      = [fromTrace (bareTransferTrace a b f g w), fromTrace (bareTransferChild a b g w)] := by
  rw [fromTrace_bubbles]
  rfl

theorem billion_val : (int64.ofInt 1000000000).val = 1000000000 := by decide

set_option maxRecDepth 100000 in
/-- C16 (counterexample): in the bare transfer scenario with total fee `f = 100`
for wallet 1, the collected value flow gives wallet 1 `Ton = -1_000_000_000`,
not `-1_000_000_000 - 100`; the fee is recorded in `Fees`. -/
theorem bare_transfer_ton_excludes_fees :
    ((@CollectActionsAndValueFlow BubbleTx sampleTxActioner
        (FromTrace (bareTransferTrace (sampleAccount 1) (sampleAccount 2) 100 50 2))
        none sampleBook).2.tonOf (sampleAccount 1)).val = -1000000000 ∧
      (-1000000000 : Int) ≠ -1000000000 - (100 : int64).val ∧
      ((@CollectActionsAndValueFlow BubbleTx sampleTxActioner
        (FromTrace (bareTransferTrace (sampleAccount 1) (sampleAccount 2) 100 50 2))
        none sampleBook).2.feesOf (sampleAccount 1)).val = 102 := by
  decide

theorem bareTransfer_root_values (a b : AccountID) (f g w : int64) :
    inValue (bareTransferTrace a b f g w).Transaction = 0 ∧
      outValueSum (bareTransferTrace a b f g w).Transaction = 0 ∧
      outFwdFeeSum (bareTransferTrace a b f g w).Transaction = 0 ∧
      childInValueSum (bareTransferTrace a b f g w).Children = 1000000000 ∧
      childInFwdFeeSum (bareTransferTrace a b f g w).Children = w.val := by
  refine ⟨?_, rfl, rfl, ?_, ?_⟩
  · show (int64.ofInt 0).val = 0
    decide
  · show (int64.ofInt 1000000000).val + 0 = 1000000000
    rw [billion_val]
    rfl
  · show w.val + 0 = w.val
    omega

theorem bareTransfer_child_values (a b : AccountID) (g w : int64) :
    inValue (bareTransferChild a b g w).Transaction = 1000000000 ∧
      outValueSum (bareTransferChild a b g w).Transaction = 0 ∧
      outFwdFeeSum (bareTransferChild a b g w).Transaction = 0 ∧
      childInValueSum (bareTransferChild a b g w).Children = 0 ∧
      childInFwdFeeSum (bareTransferChild a b g w).Children = 0 := by
  refine ⟨?_, rfl, rfl, rfl, rfl⟩
  show (int64.ofInt 1000000000).val = 1000000000
  exact billion_val

/-- C16 (amended): in the bare TON transfer scenario between two different
wallets `a` and `b`, the value flow collected over `FromTrace(trace)` has
`a.Ton = -1_000_000_000` and `b.Ton = +1_000_000_000`; the fees are not part of
`Ton`: `a.Fees` is `f` plus the forwarding fee of the transfer, `b.Fees` is the
total fee of `b`. -/
theorem bare_transfer_flow [actioner BubbleTx] (a b : AccountID) (f g w : int64)
    (forAccount : Option AccountID) (book : addressBook) (hab : a ≠ b) :
    ((CollectActionsAndValueFlow (FromTrace (bareTransferTrace a b f g w)) forAccount
        book).2.tonOf a).val = -1000000000 ∧
      ((CollectActionsAndValueFlow (FromTrace (bareTransferTrace a b f g w)) forAccount
        book).2.tonOf b).val = 1000000000 ∧
      ((CollectActionsAndValueFlow (FromTrace (bareTransferTrace a b f g w)) forAccount
        book).2.feesOf a).val = wrap64 (f.val + w.val) ∧
      ((CollectActionsAndValueFlow (FromTrace (bareTransferTrace a b f g w)) forAccount
        book).2.feesOf b).val = g.val := by
  have hta := collect_flow_proj (fun fl => fl.tonOf a) (fun x o => tonOf_Merge x o a) rfl
    (fromTrace (bareTransferTrace a b f g w)) forAccount book
  have htb := collect_flow_proj (fun fl => fl.tonOf b) (fun x o => tonOf_Merge x o b) rfl
    (fromTrace (bareTransferTrace a b f g w)) forAccount book
  have hfa := collect_flow_proj (fun fl => fl.feesOf a) (fun x o => feesOf_Merge x o a) rfl
    (fromTrace (bareTransferTrace a b f g w)) forAccount book
  have hfb := collect_flow_proj (fun fl => fl.feesOf b) (fun x o => feesOf_Merge x o b) rfl
    (fromTrace (bareTransferTrace a b f g w)) forAccount book
  rw [bareTransfer_bubbles] at hta htb hfa hfb
  simp only [List.map_cons, List.map_nil, List.sum_cons, List.sum_nil] at hta htb hfa hfb
  obtain ⟨r1, r2, r3, r4, r5⟩ := bareTransfer_root_values a b f g w
  obtain ⟨c1, c2, c3, c4, c5⟩ := bareTransfer_child_values a b g w
  have hra : ((fromTrace (bareTransferTrace a b f g w)).ValueFlow.tonOf a).val
      = wrap64 (0 - 0 - 1000000000) := by
    have h := fromTrace_tonOf_self (bareTransferTrace a b f g w)
    rw [r1, r2, r4] at h
    exact h
  have hrfa : ((fromTrace (bareTransferTrace a b f g w)).ValueFlow.feesOf a).val
      = wrap64 (f.val + 0 + w.val) := by
    have h := fromTrace_feesOf_self (bareTransferTrace a b f g w)
    rw [r3, r5] at h
    exact h
  have hcb : ((fromTrace (bareTransferChild a b g w)).ValueFlow.tonOf b).val
      = wrap64 (1000000000 - 0 - 0) := by
    have h := fromTrace_tonOf_self (bareTransferChild a b g w)
    rw [c1, c2, c4] at h
    exact h
  have hcfb : ((fromTrace (bareTransferChild a b g w)).ValueFlow.feesOf b).val
      = wrap64 (g.val + 0 + 0) := by
    have h := fromTrace_feesOf_self (bareTransferChild a b g w)
    rw [c3, c5] at h
    exact h
  have hba : b ≠ a := fun e => hab e.symm
  have hca := fromTrace_entry_other (bareTransferChild a b g w) a hab
  have hrb := fromTrace_entry_other (bareTransferTrace a b f g w) b hba
  have z1 : ((fromTrace (bareTransferChild a b g w)).ValueFlow.tonOf a).val = 0 := by
    unfold ValueFlow.tonOf
    rw [hca]
    rfl
  have z2 : ((fromTrace (bareTransferChild a b g w)).ValueFlow.feesOf a).val = 0 := by
    unfold ValueFlow.feesOf
    rw [hca]
    rfl
  have z3 : ((fromTrace (bareTransferTrace a b f g w)).ValueFlow.tonOf b).val = 0 := by
    unfold ValueFlow.tonOf
    rw [hrb]
    rfl
  have z4 : ((fromTrace (bareTransferTrace a b f g w)).ValueFlow.feesOf b).val = 0 := by
    unfold ValueFlow.feesOf
    rw [hrb]
    rfl
  have hg := g.property
  refine ⟨?_, ?_, ?_, ?_⟩
  · show ((CollectActionsAndValueFlow (fromTrace (bareTransferTrace a b f g w)) forAccount
        book).2.tonOf a).val = _
    rw [hta, hra, z1]
    unfold wrap64
    omega
  · show ((CollectActionsAndValueFlow (fromTrace (bareTransferTrace a b f g w)) forAccount
        book).2.tonOf b).val = _
    rw [htb, hcb, z3]
    unfold wrap64
    omega
  · show ((CollectActionsAndValueFlow (fromTrace (bareTransferTrace a b f g w)) forAccount
        book).2.feesOf a).val = _
    rw [hfa, hrfa, z2]
    unfold wrap64
    omega
  · show ((CollectActionsAndValueFlow (fromTrace (bareTransferTrace a b f g w)) forAccount
        book).2.feesOf b).val = _
    rw [hfb, hcfb, z4]
    unfold wrap64
    omega

/-- Witness of the amended C16 for wallets 1 and 2 and fees 100, 50, 2. -/
theorem bare_transfer_flow_witness :
    ((@CollectActionsAndValueFlow BubbleTx sampleTxActioner
        (FromTrace (bareTransferTrace (sampleAccount 1) (sampleAccount 2) 100 50 2)) none
        sampleBook).2.tonOf (sampleAccount 1)).val = -1000000000 ∧
      ((@CollectActionsAndValueFlow BubbleTx sampleTxActioner
        (FromTrace (bareTransferTrace (sampleAccount 1) (sampleAccount 2) 100 50 2)) none
        sampleBook).2.tonOf (sampleAccount 2)).val = 1000000000 ∧
      ((@CollectActionsAndValueFlow BubbleTx sampleTxActioner
        (FromTrace (bareTransferTrace (sampleAccount 1) (sampleAccount 2) 100 50 2)) none
        sampleBook).2.feesOf (sampleAccount 1)).val
          = wrap64 ((100 : int64).val + (2 : int64).val) ∧
      ((@CollectActionsAndValueFlow BubbleTx sampleTxActioner
        (FromTrace (bareTransferTrace (sampleAccount 1) (sampleAccount 2) 100 50 2)) none
        sampleBook).2.feesOf (sampleAccount 2)).val = (50 : int64).val :=
  @bare_transfer_flow sampleTxActioner (sampleAccount 1) (sampleAccount 2) 100 50 2 none
    sampleBook (by decide)

/-- C18: for every trace in which no node has remaining `OutMsgs`, the sum over
all accounts of `Ton` in the value flow collected over `FromTrace(trace)` equals,
in `int64` arithmetic, the value of the root's inbound message (0 without one).
The debit of each child's inbound value at the parent cancels its credit at the
child, whether or not every non-root node has an `InMsg`. -/
theorem ton_conservation [actioner BubbleTx] (trace : Trace)
    (forAccount : Option AccountID) (book : addressBook) (h : noOutMsgs trace = true) :
    wrap64 (CollectActionsAndValueFlow (FromTrace trace) forAccount book).2.totalTon
      = inValue trace.Transaction := by
  have h1 := collect_fromTrace_ton trace forAccount book
  rw [noOutMsgs_outValue trace h, Int.sub_zero, inValue_range] at h1
  exact h1

set_option maxRecDepth 100000 in
/-- Witness of C18 on the self-contained two-node sample trace. -/
theorem ton_conservation_witness :
    noOutMsgs sampleClosedTrace = true ∧
      wrap64 (@CollectActionsAndValueFlow BubbleTx sampleTxActioner (FromTrace sampleClosedTrace)
          none sampleBook).2.totalTon
        = inValue sampleClosedTrace.Transaction :=
  ⟨by decide, @ton_conservation sampleTxActioner sampleClosedTrace none sampleBook (by decide)⟩

/-! ## `MergeContractDeployments`: claim C19 -/

theorem lookup_foldl_insert (l : List (Sigma fun _ : AccountID => ContractDeployment))
    (nd : l.NodupKeys) (m : DeploymentMap) (a : AccountID) :
    (l.foldl (fun acc kv => acc.insert kv.1 kv.2) m).lookup a
      = match l.dlookup a with
        | some d => some d
        | none => m.lookup a := by
  induction l generalizing m with
  | nil => rfl
  | cons s rest ih =>
    obtain ⟨k, d⟩ := s
    have hnd := List.nodupKeys_cons.mp nd
    rw [List.foldl_cons, ih hnd.2]
    by_cases h : a = k
    · subst h
      have hnone : List.dlookup a rest = none := List.dlookup_eq_none.mpr hnd.1
      rw [hnone, List.dlookup_cons_eq]
      exact AList.lookup_insert m
    · rw [List.dlookup_cons_ne rest ⟨k, d⟩ h]
      cases List.dlookup a rest with
      | none => exact AList.lookup_insert_ne h
      | some x => rfl

theorem deploymentOf_merge {ι : Type} (b other : Bubble ι) (a : AccountID) :
    deploymentOf (b.MergeContractDeployments other).ContractDeployments a
      = match deploymentOf other.ContractDeployments a with
        | some d => some d
        | none => deploymentOf b.ContractDeployments a := by
  unfold Bubble.MergeContractDeployments
  simp only [Bubble.ContractDeployments, deploymentOf]
  cases ho : other.ContractDeployments with
  | none =>
    cases hb : b.ContractDeployments with
    | none => simp [Bubble.ContractDeployments] at ho hb ⊢; simp [ho, hb, AList.lookup_empty]
    | some m => simp [Bubble.ContractDeployments] at ho hb ⊢; simp [ho, hb]
  | some o =>
    cases hb : b.ContractDeployments with
    | none =>
      simp [Bubble.ContractDeployments] at ho hb ⊢
      simp only [ho, hb]
      rw [lookup_foldl_insert _ o.nodupKeys]
      rfl
    | some m =>
      simp [Bubble.ContractDeployments] at ho hb ⊢
      simp only [ho, hb]
      rw [lookup_foldl_insert _ o.nodupKeys]
      rfl

/-- C19: after `b.MergeContractDeployments(other)` the receiver maps every
account of `other` to `other`'s deployment and every other account to what it
held before (nothing when it held nothing); its map is non-nil and its other
fields are untouched; a receiver with a nil map ends up with exactly `other`'s
entries; a receiver sharing `other`'s map leaves that map's contents as they
were; and a second call with the same `other` changes no entry. -/
theorem MergeContractDeployments_spec {ι : Type} (b other : Bubble ι) (a : AccountID) :
    deploymentOf (b.MergeContractDeployments other).ContractDeployments a
        = (match deploymentOf other.ContractDeployments a with
          | some d => some d
          | none => deploymentOf b.ContractDeployments a) ∧
      (b.MergeContractDeployments other).ContractDeployments.isSome = true ∧
      (b.MergeContractDeployments other).Info = b.Info ∧
      (b.MergeContractDeployments other).Accounts = b.Accounts ∧
      (b.MergeContractDeployments other).Children = b.Children ∧
      (b.MergeContractDeployments other).ValueFlow = b.ValueFlow ∧
      deploymentOf ((Bubble.mk b.Info b.Accounts b.Children b.ValueFlow
          none).MergeContractDeployments other).ContractDeployments a
        = deploymentOf other.ContractDeployments a ∧
      deploymentOf ((Bubble.mk b.Info b.Accounts b.Children b.ValueFlow
          other.ContractDeployments).MergeContractDeployments other).ContractDeployments a
        = deploymentOf other.ContractDeployments a ∧
      deploymentOf ((b.MergeContractDeployments other).MergeContractDeployments
          other).ContractDeployments a
        = deploymentOf (b.MergeContractDeployments other).ContractDeployments a := by
  refine ⟨deploymentOf_merge b other a, rfl, rfl, rfl, rfl, rfl, ?_, ?_, ?_⟩
  · rw [deploymentOf_merge]
    cases deploymentOf other.ContractDeployments a <;> rfl
  · rw [deploymentOf_merge]
    cases h : deploymentOf other.ContractDeployments a with
    | none => simpa [Bubble.ContractDeployments] using h
    | some d => rfl
  · rw [deploymentOf_merge, deploymentOf_merge]
    cases deploymentOf other.ContractDeployments a <;> rfl

/-! ## `Action.String`: claim C20 -/

theorem declared_types_without_field :
    declaredActionTypes.filter (fun t => decide (sampleEmptyAction.FieldByName t = none))
      = [Empty, UnSubscription, AuctionTgInitBid] := by
  decide

theorem String_none_of_no_field (marshal : ActionField → String) (a : Action)
    (h : a.Type_ = "Empty" ∨ a.Type_ = "UnSubscribe" ∨ a.Type_ = "AuctionTgInitBid") :
    a.String marshal = none := by
  unfold Action.String Action.FieldByName
  rcases h with h | h | h <;> simp [h]

theorem String_some_of_field (marshal : ActionField → String) (a : Action)
    (h : a.Type_ ∈ [TonTransfer, SmartContractExec, NftItemTransfer, GetGemsNftPurchase,
      JettonTransfer, ContractDeploy, Subscription, AuctionBid]) :
    (a.String marshal).isSome = true := by
  unfold Action.String Action.FieldByName
  simp only [List.mem_cons, List.mem_singleton, List.not_mem_nil, or_false, TonTransfer,
    SmartContractExec, NftItemTransfer, GetGemsNftPurchase, JettonTransfer, ContractDeploy,
    Subscription, AuctionBid] at h
  rcases h with h | h | h | h | h | h | h | h <;> simp [h]

/-- C20 (code defect): the unsubscribe action has the declared type constant
`UnSubscription`, whose string is `UnSubscribe`; the struct `Action` has no field
of that name, so the lookup yields the zero value and `String` panics instead of
returning a string. -/
theorem String_panics_on_unsubscribe :
    sampleUnSubscription.Type_ ∈ declaredActionTypes ∧
      sampleUnSubscription.Type_ = "UnSubscribe" ∧
      sampleUnSubscription.FieldByName sampleUnSubscription.Type_ = none ∧
      sampleUnSubscription.String sampleMarshal = none := by
  decide

end Bath
